import Mathlib

/-
Verification development for the CuraEngine tree-support generator
(src/TreeSupport.h, src/TreeSupport.cpp).

The development is a shallow embedding of the two pipelines found in the
source:

* the original pipeline `cura::TreeSupport` (collisionAreas,
  propagateCollisionAreas, generateContactPoints, dropNodes, drawCircles,
  generateSupportAreas), and
* the newer pipeline `cura::Tree::TreeSupport` (ModelVolumes, Node,
  processLayer, dropNodes, generateSupportAreas, groupNodes, currentLayer).

Planar points are pairs of integers (micrometers), exactly as the source's
`Point` (ClipperLib::IntPoint with 64-bit coordinates).  The 2D polygon
library (Clipper) is an external collaborator of the repository; polygon
values are therefore kept abstract (`P`) and every polygon operation the
source calls is a parameter.  Functions of the repository that are *used*
by TreeSupport.cpp but whose sources are not part of the repository
snapshot (PolygonUtils::moveInside / moveOutside / ensureInsideOrOutside /
findClosest, MinimumSpanningTree, the `normal` vector helper, round_up_divide)
are likewise parameters; where a property of them is needed it is assumed
as an explicit hypothesis modelled from the specification's description of
the call site, and such definitions carry a `Modelled from the spec`
remark.
-/

set_option autoImplicit false

namespace CuraTree

/-- Planar integer point, `cura::Point` (ClipperLib IntPoint, 64-bit X/Y). -/
structure Pt where
  x : Int
  y : Int
  deriving DecidableEq, Repr

instance : Inhabited Pt := ⟨⟨0, 0⟩⟩

instance : Add Pt := ⟨fun a b => ⟨a.x + b.x, a.y + b.y⟩⟩

instance : Sub Pt := ⟨fun a b => ⟨a.x - b.x, a.y - b.y⟩⟩

/-- `vSize2` from utils/IntPoint.h: squared Euclidean length (exact). -/
def vSize2 (p : Pt) : Int := p.x * p.x + p.y * p.y

/-- `vSize` from utils/IntPoint.h: `sqrt` of `vSize2` truncated to an
integer coordinate.  Modelled with the integer square root. -/
def vSizeI (p : Pt) : Int := Int.ofNat (Nat.sqrt (vSize2 p).toNat)

/-- Midpoint `(a + b) / 2` with C++ truncating integer division
(`Point::operator/` divides each coordinate, rounding toward zero). -/
def halveSum (a b : Pt) : Pt := ⟨Int.tdiv (a.x + b.x) 2, Int.tdiv (a.y + b.y) 2⟩

/-- `Point / size` used for the mean of MST neighbours (componentwise
truncating division by the number of neighbours). -/
def divPt (p : Pt) (n : Nat) : Pt := ⟨Int.tdiv p.x (Int.ofNat n), Int.tdiv p.y (Int.ofNat n)⟩

/-- The join type passed to Clipper offsets. -/
inductive JoinKind where
  | miter
  | round
  deriving DecidableEq, Repr

/-- The polygon operations TreeSupport.cpp calls on the external 2D
library (`Polygons`, `PolygonUtils`, `MinimumSpanningTree`).  `P` is the
abstract type of polygon sets.  The `moveInside` family, `findClosest`,
`ensureInsideOrOutside`, `nrm` (the `normal` vector helper) and `mstAdj`
(MinimumSpanningTree::adjacentNodes) are repository helpers whose sources
are outside this snapshot; they are modelled from the spec as opaque
functions here, with the contracts the spec states assumed explicitly in
the theorems that need them. -/
structure GeomOps (P : Type) where
  union : P → P → P
  offs : P → Int → JoinKind → P
  smooth : P → Int → P
  diff : P → P → P
  inter : P → P → P
  insidePt : P → Pt → Bool
  insideBorder : P → Pt → Bool
  splitParts : P → List P
  findClosest : Pt → P → Pt
  moveOutside : P → Pt → Int → Int → Pt
  moveOutside3 : P → Pt → Int → Pt
  moveInsideMax : P → Pt → Int → Int → Pt
  moveInsideU : P → Pt → Pt
  ensureInOut : P → Pt → Pt → Int → Pt
  nrm : Pt → Int → Pt
  toParts : P → List P
  simplifyP : P → Int → Int → P
  unionSelf : P → P
  padd : P → P → P
  em : P

section ModelVolumes

variable {P : Type}

/-- Cache key of `ModelVolumes`: `(radius, layer)`.  The layer is kept as a
natural number; the source's recursion on `int` layers is only ever entered
with non-negative layers. -/
abbrev RLKey := Int × Nat

/-- One of the three memoisation maps of `ModelVolumes`
(`std::unordered_map<RadiusLayerPair, Polygons>`), as an association list;
insertion conses a fresh key (the source asserts `ret.second`, i.e. that
the key was absent). -/
def cacheFind (c : List (RLKey × P)) (k : RLKey) : Option P :=
  (c.find? (fun e => e.1 = k)).map (fun e => e.2)

/-- The mutable state of a `ModelVolumes` object: its three caches. -/
structure MVState (P : Type) where
  cc : List (RLKey × P)
  ac : List (RLKey × P)
  ic : List (RLKey × P)

/-- A `ModelVolumes` whose caches are still empty (freshly constructed). -/
def mvEmpty : MVState P := ⟨[], [], []⟩

variable (g : GeomOps P) (outl : Nat → P) (border : P) (xy mmove : Int)

/-- `ModelVolumes::collision` (TreeSupport.cpp:854-870): cache lookup, on a
miss the layer outline is united with the machine border and offset
outward by `xy_distance + radius` with round joins, and the result is
inserted. -/
def collisionM (r : Int) (z : Nat) (s : MVState P) : P × MVState P :=
  match cacheFind s.cc (r, z) with
  | some v => (v, s)
  | none =>
    let v := g.offs (g.union (outl z) border) (xy + r) JoinKind.round
    (v, { s with cc := ((r, z), v) :: s.cc })

/-- `ModelVolumes::avoidance` (TreeSupport.cpp:872-893): cache lookup; at
layer 0 the collision is cached and returned; otherwise the previous
layer's avoidance is inset by `max_move`, smoothed with 5, united with the
collision of this layer, and cached. -/
def avoidanceM (r : Int) : (z : Nat) → MVState P → P × MVState P
  | 0, s =>
    match cacheFind s.ac (r, 0) with
    | some v => (v, s)
    | none =>
      let cres := collisionM g outl border xy r 0 s
      (cres.1, { cres.2 with ac := ((r, 0), cres.1) :: cres.2.ac })
  | z + 1, s =>
    match cacheFind s.ac (r, z + 1) with
    | some v => (v, s)
    | none =>
      let ares := avoidanceM r z s
      let a0 := g.smooth (g.offs ares.1 (-mmove) JoinKind.miter) 5
      let cres := collisionM g outl border xy r (z + 1) ares.2
      let v := g.union a0 cres.1
      (v, { cres.2 with ac := ((r, z + 1), v) :: cres.2.ac })

/-- `ModelVolumes::internal_model` (TreeSupport.cpp:895-910): cache lookup,
on a miss `avoidance(r, z).difference(collision(r, z))` is computed and
inserted. -/
def internalM (r : Int) (z : Nat) (s : MVState P) : P × MVState P :=
  match cacheFind s.ic (r, z) with
  | some v => (v, s)
  | none =>
    let ares := avoidanceM g outl border xy mmove r z s
    let cres := collisionM g outl border xy r z ares.2
    let v := g.diff ares.1 cres.1
    (v, { cres.2 with ic := ((r, z), v) :: cres.2.ic })

/-- The collision field exactly as the specification words it: union of
the layer outline with the machine border, offset outward by
`xy_distance + r` with round joins.  (Spec-side definition, compared with
the source embeddings above and below.) -/
def collisionSpec (r : Int) (z : Nat) : P :=
  g.offs (g.union (outl z) border) (xy + r) JoinKind.round

/-- The avoidance recurrence exactly as the specification words it:
`avoidance(r, 0) = collision(r, 0)` and
`avoidance(r, z) = union(inset(avoidance(r, z-1), -max_move).smooth(5), collision(r, z))`.
(Spec-side definition, compared with the source embeddings.) -/
def avoidanceSpec (r : Int) : Nat → P
  | 0 => collisionSpec g outl border xy r 0
  | z + 1 =>
    g.union (g.smooth (g.offs (avoidanceSpec r z) (-mmove) JoinKind.miter) 5)
      (collisionSpec g outl border xy r (z + 1))

/-- `internal_model` as the specification words it:
`avoidance(r, z) \ collision(r, z)`. -/
def internalSpec (r : Int) (z : Nat) : P :=
  g.diff (avoidanceSpec g outl border xy mmove r z) (collisionSpec g outl border xy r z)

/-- The inner loop of `TreeSupport::collisionAreas` (TreeSupport.cpp:183-189)
for one radius sample: `push_back` of the offsetted union for each layer
`0 ≤ layer_nr < n`. -/
def collisionRow (r : Int) : Nat → List P
  | 0 => []
  | n + 1 => collisionRow r n ++ [g.offs (g.union (outl n) border) (xy + r) JoinKind.round]

/-- The loop body of `TreeSupport::propagateCollisionAreas`
(TreeSupport.cpp:672-678) for one radius sample: the list starts with
`collision(0)`; each following layer insets the previous entry by the
maximum move distance, smooths with 5, unites with this layer's collision
and appends.  `propagateRow coll n` holds the entries for layers `0..n`. -/
def propagateRow (coll : Nat → P) : Nat → List P
  | 0 => [coll 0]
  | z + 1 =>
    let prev := propagateRow coll z
    prev ++ [g.union (g.smooth (g.offs (prev.getLastD g.em) (-mmove) JoinKind.miter) 5) (coll (z + 1))]

end ModelVolumes

/-! ### The three sites that compute the per-layer move limit -/

/-- `std::numeric_limits<coord_t>::max()`; `coord_t` is ClipperLib's 64-bit
`cInt`. -/
def coordMaxI : Int := 2 ^ 63 - 1

/-- C cast `(coord_t)x` of a double: truncation toward zero. -/
noncomputable def truncToCoord (x : ℝ) : Int := if 0 ≤ x then ⌊x⌋ else ⌈x⌉

/-- The move limit as computed in `TreeSupport::dropNodes`
(TreeSupport.cpp:323-324): `angle` is the `AngleRadians` setting, a double
holding the angle in radians, and the guard compares that radian value
against the literal `90`. -/
noncomputable def maxMoveDropNodes (angle layerHeight : ℝ) : Int :=
  if angle < 90 then truncToCoord (Real.tan angle * layerHeight) else coordMaxI

/-- The move limit as computed in `TreeSupport::propagateCollisionAreas`
(TreeSupport.cpp:666-667): the guard compares the radian value against
`TAU / 4` (utils/math.h defines `TAU` as `2 π`). -/
noncomputable def maxMovePropagate (angle layerHeight : ℝ) : Int :=
  if angle < 2 * Real.pi / 4 then truncToCoord (Real.tan angle * layerHeight) else coordMaxI

/-- The move limit as computed in `Tree::TreeParams::TreeParams`
(TreeSupport.cpp:698-700): the same radians-against-`90` guard as
`dropNodes`. -/
noncomputable def maxMoveTreeParams (angle layerHeight : ℝ) : Int :=
  if angle < 90 then truncToCoord (Real.tan angle * layerHeight) else coordMaxI

/-! ### The original pipeline: forest representation

`cura::TreeSupport::Node` objects live on the heap and are referenced from
the per-layer `unordered_set<Node*>` collections; parent and
merged-neighbour links are raw pointers.  The embedding uses an arena: a
store mapping numeric ids to node records, plus per-layer id lists. -/

/-- `cura::TreeSupport::Node` (TreeSupport.h:47-136). -/
structure ONode where
  pos : Pt
  dtt : Nat
  skin : Bool
  roof : Int
  toBp : Bool
  parent : Option Nat
  merged : List Nat
  deriving DecidableEq, Repr

/-- The heap of `Node` objects plus the per-layer `contact_nodes` sets.
`fresh` is the next unused id. -/
structure Forest where
  store : List (Nat × ONode)
  layers : List (List Nat)
  fresh : Nat
  deriving DecidableEq, Repr

/-- Lookup of a node id in the store (a pointer dereference in the
source). -/
def storeFind : List (Nat × ONode) → Nat → Option ONode
  | [], _ => none
  | e :: st, i => if e.1 = i then some e.2 else storeFind st i

def getNode (F : Forest) (i : Nat) : Option ONode := storeFind F.store i

def updNode (F : Forest) (i : Nat) (f : ONode → ONode) : Forest :=
  { F with store := F.store.map (fun e => if e.1 = i then (e.1, f e.2) else e) }

/-- `TreeSupport::insertDroppedNode` (TreeSupport.cpp:646-658): the
per-layer set hashes and compares nodes by position, so a dropped node
colliding with an existing position is not inserted; instead the existing
node absorbs the maxima of `distance_to_top` and
`support_roof_layers_below`. -/
def insertDropped (F : Forest) (z1 : Nat) (nd : ONode) : Forest :=
  match (F.layers.getD z1 []).find?
      (fun i => ((getNode F i).map (fun x => x.pos)) = some nd.pos) with
  | some cid =>
    updNode F cid (fun x => { x with dtt := max x.dtt nd.dtt, roof := max x.roof nd.roof })
  | none =>
    { store := (F.fresh, nd) :: F.store,
      layers := F.layers.set z1 ((F.layers.getD z1 []) ++ [F.fresh]),
      fresh := F.fresh + 1 }

/-- The per-run inputs of `TreeSupport::dropNodes`: geometry, the three
per-radius-sample volume tables, the MST adjacency provider
(utils/MinimumSpanningTree, outside this snapshot), and the scalar
settings.  `brn` is the `branch_radius_node` double formula of lines
422/485/513 and `sampleOf` the `branch_radius_sample` rounding of lines
423/514 as a function of `distance_to_top`; both are double arithmetic
abstracted into functions. -/
structure OldCtx (P : Type) where
  g : GeomOps P
  coll : Nat → Nat → P
  avoid : Nat → Nat → P
  guide : Nat → Nat → P
  mstAdj : List Pt → Pt → List Pt
  m : Int
  res : Int
  restsOnModel : Bool
  brn : Nat → Int
  sampleOf : Nat → Nat

section OldDrop

variable {P : Type}

/-- Lines 436-443 (and identically 527-534) of TreeSupport.cpp: form
`difference = moved - node.position`, replace it by
`normal(difference, max_move)` when it exceeds `max_move`, and return
`node.position + difference`. -/
def capDiff (C : OldCtx P) (nodePos moved : Pt) : Pt :=
  if vSize2 (moved - nodePos) > C.m * C.m then nodePos + C.g.nrm (moved - nodePos) C.m
  else nodePos + (moved - nodePos)

/-- Lines 433-437 (leaf merge) and 523-528 (move pass) of
TreeSupport.cpp: pull a position toward the internal guide —
`findClosest` from `query`, then `ensureInsideOrOutside` of `target` with
`distance + max_move` — and cap the displacement from the node's position
at `max_move`.  The merge branch queries from `node.position`, the move
branch from the already-shifted vertex, hence the separate `query`
argument. -/
def guideAdjust (C : OldCtx P) (z sIdx : Nat) (nodePos query target : Pt) : Pt :=
  capDiff C nodePos
    (C.g.ensureInOut (C.guide sIdx (z - 1)) target
      (C.g.findClosest query (C.guide sIdx (z - 1)))
      (vSizeI (nodePos - C.g.findClosest query (C.guide sIdx (z - 1))) + C.m))

/-- Lines 420-444 of TreeSupport.cpp: the position of the node created by
a leaf-pair merge.  It starts from the midpoint of the two merged
positions and is then adjusted by the group's movement rule: group 0
pushes it outside the avoidance area via `PolygonUtils::moveOutside` with
`radius_sample_resolution + 100` clearance and a search budget of
`(max_move + radius_sample_resolution + 100)²`; interior groups move it
toward the internal guide, with the resulting displacement from the
current node's position capped at `max_move` via `normal`. -/
def leafMergeNextPos (C : OldCtx P) (z : Nat) (g0 : Bool) (sIdx : Nat) (nodePos nbr : Pt) : Pt :=
  if g0 then
    C.g.moveOutside (C.avoid sIdx (z - 1)) (halveSum nodePos nbr) (C.res + 100)
      ((C.m + C.res + 100) * (C.m + C.res + 100))
  else
    guideAdjust C z sIdx nodePos nodePos (halveSum nodePos nbr)

/-- Lines 495-511 of TreeSupport.cpp: move toward the sum of the
MST-neighbour directions, capped at `max_move` via `normal`, but only for
nodes that are not about to collapse into their sole close neighbour. -/
def meanStep (C : OldCtx P) (nodePos : Pt) (nbrs : List Pt) : Pt :=
  if nbrs.length > 1 ∨ (nbrs.length = 1 ∧ vSize2 (nbrs.headD nodePos - nodePos) ≥ C.m * C.m) then
    if vSize2 (nbrs.foldl (fun acc q => acc + (q - nodePos)) (⟨0, 0⟩ : Pt)) ≤ C.m * C.m then
      nodePos + nbrs.foldl (fun acc q => acc + (q - nodePos)) (⟨0, 0⟩ : Pt)
    else nodePos + C.g.nrm (nbrs.foldl (fun acc q => acc + (q - nodePos)) (⟨0, 0⟩ : Pt)) C.m
  else nodePos

/-- Lines 493-535 of TreeSupport.cpp: the position of the node created for
a surviving node in the second ("move") pass.  The node first moves
toward the sum of the MST-neighbour directions (capped at `max_move`),
then group 0 applies `moveOutside` against the avoidance area while
interior groups move toward the internal guide with the total
displacement capped at `max_move`. -/
def dropMoveNextPos (C : OldCtx P) (z : Nat) (g0 : Bool) (sIdx : Nat) (nodePos : Pt)
    (nbrs : List Pt) : Pt :=
  if g0 then
    C.g.moveOutside (C.avoid sIdx (z - 1)) (meanStep C nodePos nbrs) (C.res + 100)
      ((C.m + C.res + 100) * (C.m + C.res + 100))
  else
    guideAdjust C z sIdx nodePos (meanStep C nodePos nbrs) (meanStep C nodePos nbrs)

/-- Lines 369-387 of TreeSupport.cpp: find the avoidance part a node
belongs to.  `best` starts as the value `(size_t)-1` paired with
`closest_part_distance2 = coord_t max`; a part containing the position
(borders included) wins immediately, otherwise the first part of strictly
minimal squared distance wins. -/
def closestPartGo (g : GeomOps P) (p : Pt) :
    List P → Nat → Option Nat → Int → Option Nat
  | [], _, best, _ => best
  | part :: rest, i, best, bestD =>
    if g.insideBorder part p then some i
    else
      let d2 := vSize2 (p - g.findClosest p part)
      if d2 < bestD then closestPartGo g p rest (i + 1) (some i) d2
      else closestPartGo g p rest (i + 1) best bestD

/-- Position-keyed group map (`std::unordered_map<Point, Node*>`): the
`operator[]` assignment overwrites an existing key. -/
def alInsert (l : List (Pt × Nat)) (k : Pt) (v : Nat) : List (Pt × Nat) :=
  match l.find? (fun e => e.1 = k) with
  | some _ => l.map (fun e => if e.1 = k then (k, v) else e)
  | none => l ++ [(k, v)]

def alLookup (l : List (Pt × Nat)) (k : Pt) : Option Nat :=
  (l.find? (fun e => e.1 = k)).map (fun e => e.2)

def groupInsert (gs : List (List (Pt × Nat))) (i : Nat) (k : Pt) (v : Nat) :
    List (List (Pt × Nat)) :=
  gs.set i (alInsert (gs.getD i []) k v)

/-- Lines 346-390 of TreeSupport.cpp: assign each node of the layer to a
group.  Nodes that can neither rest on the model nor reach the build
plate go straight onto the unsupported deque; `to_buildplate` nodes (or
everything when there are no parts) go to group 0; the rest go to
`closest part + 1` (the `(size_t)-1 + 1 = 0` wraparound of a never-updated
`closest_part` is modelled by the `none` case). -/
def assignGroups (C : OldCtx P) (F : Forest) (z : Nat) (parts : List P) (lcn : List Nat) :
    List (List (Pt × Nat)) × List (Nat × Nat) :=
  lcn.foldl
    (fun acc nid =>
      match getNode F nid with
      | none => acc
      | some nd =>
        if ¬C.restsOnModel ∧ ¬nd.toBp then (acc.1, (z, nid) :: acc.2)
        else if nd.toBp ∨ parts.isEmpty then (groupInsert acc.1 0 nd.pos nid, acc.2)
        else
          let gi :=
            match closestPartGo C.g nd.pos parts 0 none coordMaxI with
            | some i => i + 1
            | none => 0
          (groupInsert acc.1 gi nd.pos nid, acc.2))
    (List.replicate (parts.length + 1) [], [])

/-- Lines 408-472 of TreeSupport.cpp: the first ("merge") pass body for
one map entry.  A leaf pair (sole MST neighbour closer than `max_move`
whose own degree is 1) produces a fused dropped node and marks both
originals; a hub (degree > 1) absorbs every neighbour closer than
`max_move`, taking field maxima and concatenating merged-neighbour
lists. -/
def firstPassEntry (C : OldCtx P) (z : Nat) (gIdx : Nat) (adj : Pt → List Pt)
    (group : List (Pt × Nat)) (acc : Forest × List Nat) (e : Pt × Nat) : Forest × List Nat :=
  if e.2 ∈ acc.2 then acc
  else
    match getNode acc.1 e.2 with
    | none => acc
    | some nd =>
      match adj nd.pos with
      | [q] =>
        if vSize2 (q - nd.pos) < C.m * C.m ∧ (adj q).length = 1 then
          let sIdx := C.sampleOf (nd.dtt + 1)
          let npos := leafMergeNextPos C z (gIdx = 0) sIdx nd.pos q
          let toBp := !(C.g.insidePt (C.avoid sIdx (z - 1)) npos)
          let newNd : ONode := ⟨npos, nd.dtt + 1, nd.skin, nd.roof - 1, toBp, some e.2, []⟩
          let F1 := insertDropped acc.1 (z - 1) newNd
          match alLookup group q with
          | some qid =>
            (updNode F1 e.2 (fun x => { x with merged := qid :: x.merged }),
             e.2 :: qid :: acc.2)
          | none => (F1, e.2 :: acc.2)
        else acc
      | nbrs =>
        if nbrs.length > 1 then
          nbrs.foldl
            (fun acc2 q =>
              if vSize2 (q - nd.pos) < C.m * C.m then
                match alLookup group q with
                | none => acc2
                | some qid =>
                  match getNode acc2.1 qid with
                  | none => acc2
                  | some qn =>
                    (updNode acc2.1 e.2 (fun x =>
                        { x with dtt := max x.dtt qn.dtt, roof := max x.roof qn.roof,
                                 merged := (qid :: x.merged) ++ qn.merged }),
                     qid :: acc2.2)
              else acc2)
            acc
        else acc

/-- Lines 474-540 of TreeSupport.cpp: the second ("move") pass body for
one map entry.  A surviving interior node buried deeper in the collision
area than its branch radius becomes an unsupported leaf; otherwise a
dropped node is created at `dropMoveNextPos` one layer down. -/
def secondPassEntry (C : OldCtx P) (z : Nat) (gIdx : Nat) (adj : Pt → List Pt)
    (acc : Forest × List Nat × List (Nat × Nat)) (e : Pt × Nat) :
    Forest × List Nat × List (Nat × Nat) :=
  if e.2 ∈ acc.2.1 then acc
  else
    match getNode acc.1 e.2 with
    | none => acc
    | some nd =>
      let far :=
        gIdx > 0 ∧ C.g.insidePt (C.coll 0 z) nd.pos ∧
          vSize2 (nd.pos - C.g.findClosest nd.pos (C.coll 0 z)) ≥ C.brn nd.dtt * C.brn nd.dtt
      if far then (acc.1, acc.2.1, (z, e.2) :: acc.2.2)
      else
        let sIdx := C.sampleOf (nd.dtt + 1)
        let npos := dropMoveNextPos C z (gIdx = 0) sIdx nd.pos (adj nd.pos)
        let toBp := !(C.g.insidePt (C.avoid sIdx (z - 1)) npos)
        let newNd : ONode := ⟨npos, nd.dtt + 1, nd.skin, nd.roof - 1, toBp, some e.2, []⟩
        (insertDropped acc.1 (z - 1) newNd, acc.2.1, acc.2.2)

def eraseFromLayer (F : Forest) (lay : Nat) (nid : Nat) : Forest :=
  { F with layers := F.layers.set lay ((F.layers.getD lay []).filter (fun i => i ≠ nid)) }

/-- Lines 548-556 of TreeSupport.cpp: walk a branch root-ward from an
unsupported leaf, erasing each node from its layer and enqueuing (at the
deque front) every merged neighbour.  The source walks raw parent
pointers; the walk is fuelled here to stay total. -/
def pruneChain : Nat → Nat → Nat → Forest → List (Nat × Nat) → Forest × List (Nat × Nat)
  | 0, _, _, F, acc => (F, acc)
  | fuel + 1, lay, nid, F, acc =>
    match getNode F nid with
    | none => (F, acc)
    | some nd =>
      let F1 := eraseFromLayer F lay nid
      let acc1 := nd.merged.foldl (fun a q => (lay, q) :: a) acc
      match nd.parent with
      | none => (F1, acc1)
      | some pid => pruneChain fuel (lay + 1) pid F1 acc1

/-- Lines 543-557 of TreeSupport.cpp: process the unsupported deque from
the back until it is empty (fuelled). -/
def pruneAux : Nat → List (Nat × Nat) → Forest → Forest
  | 0, _, F => F
  | fuel + 1, q, F =>
    match q.getLast? with
    | none => F
    | some e =>
      let st := pruneChain (F.store.length + 1) e.1 e.2 F q.dropLast
      pruneAux fuel st.2 st.1

/-- Lines 403-541 of TreeSupport.cpp for one group: build its MST
adjacency, run the first ("merge") pass with a fresh `to_delete` set, then
the second ("move") pass, threading the forest and the unsupported
deque. -/
def groupStep (C : OldCtx P) (z : Nat) (st : Forest × List (Nat × Nat))
    (ge : Nat × List (Pt × Nat)) : Forest × List (Nat × Nat) :=
  let adj := C.mstAdj (ge.2.map (fun e => e.1))
  let fp := ge.2.foldl (firstPassEntry C z ge.1 adj ge.2) (st.1, [])
  let sp := ge.2.foldl (secondPassEntry C z ge.1 adj) (fp.1, fp.2, st.2)
  (sp.1, sp.2.2)

/-- The grouping stage of one layer iteration (lines 338-401). -/
def layerGroups (C : OldCtx P) (F : Forest) (z : Nat) :
    List (List (Pt × Nat)) × List (Nat × Nat) :=
  assignGroups C F z (C.g.splitParts (C.avoid 0 z)) (F.layers.getD z [])

/-- The two passes over every group of one layer iteration. -/
def layerPasses (C : OldCtx P) (F : Forest) (z : Nat) : Forest × List (Nat × Nat) :=
  (layerGroups C F z).1.enum.foldl (groupStep C z) (F, (layerGroups C F z).2)

/-- One iteration of the layer loop of `TreeSupport::dropNodes`
(TreeSupport.cpp:333-560) at layer `z ≥ 1`: group the nodes, run the
merge pass and the move pass per group, then prune unsupported
branches. -/
def oldLayerBody (C : OldCtx P) (F : Forest) (z : Nat) : Forest :=
  pruneAux
    (((layerPasses C F z).1.store.length + (layerPasses C F z).2.length + 1) *
      ((layerPasses C F z).1.store.length + 1))
    (layerPasses C F z).2 (layerPasses C F z).1

/-- The descending layer sequence `size-1, ..., 1` of the loop header
`for (layer_nr = contact_nodes.size() - 1; layer_nr > 0; layer_nr--)`
(TreeSupport.cpp:333). -/
def countdown : Nat → List Nat
  | 0 => []
  | n + 1 => (n + 1) :: countdown n

/-- `TreeSupport::dropNodes` (TreeSupport.cpp:318-567): iterate the layer
body over every layer from the top of the storage down to layer 1,
irrespective of where contact nodes actually are. -/
def dropNodesOld (C : OldCtx P) (F : Forest) : Forest :=
  (countdown (F.layers.length - 1)).foldl (oldLayerBody C) F

/-- The highest layer index holding a contact node (`max(contact_layer)`
of the claim). -/
def maxContactLayer (ls : List (List Nat)) : Nat :=
  (List.range ls.length).foldl
    (fun acc z => if (ls.getD z []).isEmpty then acc else max acc z) 0

end OldDrop

/-! ### Contact seeding (original pipeline) -/

/-- One overhang part of `mesh.overhang_areas[...]` together with the
geometric tests the seeding loop performs on it.  `boundsContains` is the
part's AABB expanded by `half_overhang_distance` (a `tan`-based double,
folded into the oracle); `moveIn` is
`PolygonUtils::moveInside(part, pt, 0, half_overhang_distance²)` and
`moveInU` the unconditional `PolygonUtils::moveInside(part, pt)` — both
from utils/polygonUtils, outside this snapshot, modelled from the spec as
point transformers. -/
structure PartData where
  boundsContains : Pt → Bool
  moveIn : Pt → Pt
  insideP : Pt → Bool
  moveInU : Pt → Pt

/-- Lines 616-632 of TreeSupport.cpp: run every grid candidate against one
overhang part, collecting the surviving (moved-inside) candidates and the
`added` flag. -/
def seedPart (pd : PartData) (collInside : Pt → Bool) (grid : List Pt) : List Pt × Bool :=
  grid.foldl
    (fun acc c =>
      if pd.boundsContains c then
        let c1 := pd.moveIn c
        if pd.insideP c1 ∧ ¬ collInside c1 then (acc.1 ++ [c1], true) else acc
      else acc)
    ([], false)

/-- Lines 611-642 of TreeSupport.cpp: the contact nodes one overhang part
contributes on one seeding layer.  Grid survivors become nodes with
`distance_to_top = 0`, skin direction `(layer + z_distance_top_layers) % 2`
and `to_buildplate = true`; if no candidate survived, a fallback node at
the mesh AABB centre moved inside the part is added unconditionally. -/
def contactsForPart (pd : PartData) (collInside : Pt → Bool) (grid : List Pt) (centre : Pt)
    (layerNr zTop : Nat) (roofLayers : Int) : List ONode :=
  let sp := seedPart pd collInside grid
  let gridNodes : List ONode :=
    sp.1.map (fun c => ⟨c, 0, (layerNr + zTop) % 2 = 1, roofLayers, true, none, []⟩)
  if sp.2 then gridNodes
  else gridNodes ++ [⟨pd.moveInU centre, 0, layerNr % 2 = 1, roofLayers, true, none, []⟩]

/-- One mesh as the seeder sees it: the per-layer overhang parts, the AABB
centre, the 22°-rotated grid sample points (their trigonometric
construction, lines 573-596, is kept abstract), `z_distance_top_layers`
and the roof layer count. -/
structure MeshIn where
  enable : Bool
  overhang : List (List PartData)
  centre : Pt
  grid : List Pt
  zTop : Nat
  roofLayers : Int

/-- Lines 603-643 of TreeSupport.cpp: the nodes seeded into
`contact_nodes[layerNr]`; empty when the overhang at
`layerNr + z_distance_top_layers` is empty. -/
def genContactLayer (mesh : MeshIn) (collInside : Nat → Pt → Bool) (layerNr : Nat) :
    List ONode :=
  let overhang := mesh.overhang.getD (layerNr + mesh.zTop) []
  if overhang.isEmpty then []
  else
    overhang.flatMap (fun pd =>
      contactsForPart pd (collInside layerNr) mesh.grid mesh.centre layerNr mesh.zTop
        mesh.roofLayers)

/-- The seeding layer range `1 ≤ layer_nr < overhang.size - z_distance_top_layers`
of line 603 (when the difference is not positive the loop never runs). -/
def seedLayerIndices (mesh : MeshIn) : List Nat :=
  (List.range (mesh.overhang.length - mesh.zTop)).filter (fun z => 1 ≤ z)

/-- Insert freshly allocated contact nodes into a layer's set (each `new
Node` is a distinct pointer, so insertion never collides). -/
def addContacts (F : Forest) (z : Nat) (nodes : List ONode) : Forest :=
  nodes.foldl
    (fun acc nd =>
      { store := (acc.fresh, nd) :: acc.store,
        layers := acc.layers.set z ((acc.layers.getD z []) ++ [acc.fresh]),
        fresh := acc.fresh + 1 })
    F

/-- `TreeSupport::generateContactPoints` for one mesh (TreeSupport.cpp:569-644). -/
def seedMesh (mesh : MeshIn) (collInside : Nat → Pt → Bool) (F : Forest) : Forest :=
  (seedLayerIndices mesh).foldl
    (fun acc z => addContacts acc z (genContactLayer mesh collInside z)) F

/-- Lines 131-144 of TreeSupport.cpp: empty per-layer sets for the whole
storage, then seeding of every tree-support-enabled mesh. -/
def seedForest (numLayers : Nat) (meshes : List MeshIn) (collInside : Nat → Pt → Bool) :
    Forest :=
  meshes.foldl (fun acc mesh => if mesh.enable then seedMesh mesh collInside acc else acc)
    ⟨[], List.replicate numLayers [], 0⟩

/-- The total number of contact nodes that were seeded. -/
def totalContacts (numLayers : Nat) (meshes : List MeshIn) (collInside : Nat → Pt → Bool) :
    Nat :=
  ((seedForest numLayers meshes collInside).layers.map List.length).sum

/-! ### drawCircles (original pipeline) -/

/-- The per-layer inputs of `TreeSupport::drawCircles`
(TreeSupport.cpp:199-316).  `nodeCircle` is the scaled or tip-sheared
10-gon stamped for a node (its double trigonometry, lines 230-250, is kept
abstract); `simpArgA`/`simpArgB` are the two `simplify` arguments of line
271 (`circle_side_length * (1 + scale)` per layer, `line_width >> 2`). -/
structure DrawCfg (P : Type) where
  g : GeomOps P
  nodeCircle : ONode → P
  zBottomLayers : Nat
  bottomEnable : Bool
  skipLayers : Nat
  bottomHeightLayers : Nat
  outl : Nat → P
  simpArgA : Nat → Int
  simpArgB : Int

/-- The sampled `layers_below` values `0, skip, 2·skip, ... < bound` of the
floor loop (line 281); a zero step would not terminate in the source. -/
def stepRange (bound step : Nat) : List Nat :=
  (List.range bound).filter (fun i => i % step = 0)

/-- One iteration of the layer loop of `drawCircles`
(TreeSupport.cpp:220-301): stamp roof/support circles, union each set,
subtract the roof and the Z-collision, simplify, optionally carve support
floors, and split the support into parts.  Returns
(infill parts, roof polygons, floor polygons). -/
def drawLayer {P : Type} (D : DrawCfg P) (coll0 : Nat → P) (numColl layerNr : Nat)
    (nodes : List ONode) (roofIn : P) : List P × P × P :=
  let sr := nodes.foldl
    (fun (acc : P × P) nd =>
      let c := D.nodeCircle nd
      if 0 ≤ nd.roof then (acc.1, D.g.padd acc.2 c) else (D.g.padd acc.1 c, acc.2))
    (D.g.em, roofIn)
  let support1 := D.g.unionSelf sr.1
  let roof1 := D.g.unionSelf sr.2
  let support2 := D.g.diff support1 roof1
  let zc := layerNr + 1 - D.zBottomLayers
  let pair :=
    if numColl > zc then (D.g.diff support2 (coll0 zc), D.g.diff roof1 (coll0 zc))
    else (support2, roof1)
  let support3 := D.g.simplifyP pair.1 (D.simpArgA layerNr) D.simpArgB
  let bottomRes :=
    if D.bottomEnable then
      let floor0 := (stepRange D.bottomHeightLayers D.skipLayers).foldl
        (fun acc lb => D.g.padd acc (D.g.inter support3 (D.outl (layerNr - lb - D.zBottomLayers))))
        D.g.em
      let floor1 :=
        D.g.padd floor0
          (D.g.inter support3 (D.outl (layerNr - D.bottomHeightLayers - D.zBottomLayers)))
      (D.g.diff support3 (D.g.offs floor1 10 JoinKind.miter), floor1)
    else (support3, D.g.em)
  (D.g.toParts bottomRes.1, pair.2, bottomRes.2)

/-! ### The original driver `TreeSupport::generateSupportAreas` -/

section OldDriver

variable {P : Type}

/-- Lines 115-129 of TreeSupport.cpp packaged as a context for
`dropNodes`: the collision table from `collisionAreas`, the avoidance
table from `propagateCollisionAreas` and the internal guide as their
difference. -/
def buildOldCtx (g : GeomOps P) (outl : Nat → P) (border : P) (xy mmove res : Int)
    (numSamples numLayers : Nat) (mstAdj : List Pt → Pt → List Pt) (restsOnModel : Bool)
    (brn : Nat → Int) (sampleOf : Nat → Nat) : OldCtx P :=
  let collV : List (List P) :=
    (List.range numSamples).map (fun s => collisionRow g outl border xy (Int.ofNat s * res) numLayers)
  let avoidV : List (List P) :=
    collV.map (fun row => propagateRow g mmove (fun z => row.getD z g.em) (numLayers - 1))
  let guideV : List (List P) :=
    (List.range numSamples).map (fun s =>
      (List.range numLayers).map (fun z =>
        g.diff ((avoidV.getD s []).getD z g.em) ((collV.getD s []).getD z g.em)))
  { g := g,
    coll := fun s z => ((collV.getD s []).getD z g.em),
    avoid := fun s z => ((avoidV.getD s []).getD z g.em),
    guide := fun s z => ((guideV.getD s []).getD z g.em),
    mstAdj := mstAdj, m := mmove, res := res, restsOnModel := restsOnModel,
    brn := brn, sampleOf := sampleOf }

/-- The output of the original driver: the `generated` flag and, per
layer, the emitted infill parts, roof and floor. -/
structure OldOut (P : Type) where
  generated : Bool
  outLayers : List (List P × P × P)
  deriving Repr

/-- `TreeSupport::generateSupportAreas` (TreeSupport.cpp:95-163): return
early (flag untouched, i.e. still false) unless tree support is enabled
for the mesh group or some mesh; otherwise build the volumes, seed
contacts, drop nodes, draw circles, and set `storage.support.generated`
to `true` unconditionally. -/
def generateSupportAreasOld (C : OldCtx P) (D : DrawCfg P) (groupEnable : Bool)
    (meshes : List MeshIn) (numLayers : Nat) (roofIn : Nat → P) : OldOut P :=
  let use := groupEnable || meshes.any (fun mesh => mesh.enable)
  if !use then ⟨false, []⟩
  else
    let collInside := fun z p => C.g.insideBorder (C.coll 0 z) p
    let F0 := seedForest numLayers meshes collInside
    let F1 := dropNodesOld C F0
    let drawn := (List.range numLayers).map (fun z =>
      drawLayer D (C.coll 0) numLayers z
        ((F1.layers.getD z []).filterMap (getNode F1)) (roofIn z))
    ⟨true, drawn⟩

end OldDriver

/-! ### The newer pipeline `cura::Tree::TreeSupport` -/

/-- `cura::Tree::Node` (TreeSupport.h:327-367): position, radius, layer
and exclusively owned children.  The `parent_` back-pointer is purely
navigational and is not part of the value. -/
inductive TNode where
  | mk (pos : Pt) (radius : Int) (layer : Int) (children : List TNode)

def TNode.pos : TNode → Pt
  | .mk p _ _ _ => p

def TNode.radius : TNode → Int
  | .mk _ r _ _ => r

def TNode.layer : TNode → Int
  | .mk _ _ l _ => l

def TNode.children : TNode → List TNode
  | .mk _ _ _ c => c

def TNode.withPos : TNode → Pt → TNode
  | .mk _ r l c, p => .mk p r l c

/-- `Node::merge(std::unique_ptr<Node>)` (TreeSupport.cpp:917-926): take
the maximal radius and append the other's children (the source asserts
equal layers). -/
def TNode.merge1 : TNode → Option TNode → TNode
  | n, none => n
  | .mk p r l c, some (.mk _ r2 _ c2) => .mk p (max r r2) l (c ++ c2)

/-- `Tree::TreeSupport::dropNodes` (TreeSupport.cpp:1071-1087): every root
is replaced by a node at the same position, one layer lower, with the
radius grown by `radius_increment`, adopting the old root as its sole
child. -/
def dropNodesNew (inc : Int) (ts : List TNode) : List TNode :=
  ts.map (fun n => .mk n.pos (n.radius + inc) (n.layer - 1) [n])

/-- `Tree::TreeSupport::currentLayer` (TreeSupport.cpp:1312-1318): the
front root's layer; the source asserts non-emptiness and that all roots
share that layer. -/
def currentLayerNew (ts : List TNode) : Int :=
  match ts with
  | [] => 0
  | n :: _ => n.layer

section NewPipeline

variable {P : Type}

/-- `Tree::moveTowards` (TreeSupport.cpp:792-812): step from `point`
toward `target`, capped at `move_limit` via `normal`; if the result lands
inside `invalid` it is pushed back out with the three-argument
`moveOutside`. -/
def moveTowardsN (g : GeomOps P) (point target : Pt) (invalid : P) (moveLimit : Int) : Pt :=
  let dv := target - point
  let newPos := if vSizeI dv > moveLimit then point + g.nrm dv moveLimit else target
  if g.insidePt invalid newPos then g.moveOutside3 invalid newPos moveLimit else newPos

/-- `Tree::TreeSupport::removeUnsupportableByBuildPlate`
(TreeSupport.cpp:1089-1106): drop every root that sits inside its
avoidance volume with the closest escape farther than `max_move`. -/
def removeUnsupportableNew (g : GeomOps P) (avoid : Int → Int → P) (m lay : Int)
    (ts : List TNode) : List TNode :=
  ts.filter (fun n =>
    let vol := avoid n.radius lay
    ¬ (g.insidePt vol n.pos ∧ vSizeI (g.findClosest n.pos vol - n.pos) > m))

/-- The first index holding a live node at the given position —
`std::find_if` over the group comparing `n->position()`
(TreeSupport.cpp:1002); a moved-from (null) entry would be dereferenced by
the source, which is modelled here as not matching. -/
def findIdxPos (l : List (Option TNode)) (p : Pt) : Option Nat :=
  l.findIdx? (fun o =>
    match o with
    | some n => n.pos = p
    | none => false)

/-- The `std::partition` of a non-leaf's merge step
(TreeSupport.cpp:1009-1016): split the rest of the group into the
neighbours to absorb (adjacent in the MST and within `max_move`) and the
survivors. -/
def hubMerge (thr : Int) (cur : TNode) (nbrs : List Pt) (tail : List (Option TNode)) :
    List (Option TNode) × List (Option TNode) :=
  tail.partition (fun o =>
    match o with
    | some n2 => (nbrs.contains n2.pos) && (vSizeI (n2.pos - cur.pos) ≤ thr)
    | none => false)

/-- The merge loop of `Tree::TreeSupport::processLayer`
(TreeSupport.cpp:987-1024) over one group, with the iterator as an index
and one unit of fuel per loop entry (the index strictly grows, so
`length + 1` fuel suffices).  A leaf (exactly one MST neighbour within
`max_move`) is merged into the node found at the neighbour position; a
non-leaf partitions the remainder of the group into mergeable neighbours
(adjacent and within `max_move`) and absorbs them, the iterator jumping
past the merged (nulled) entries. -/
def mergePassAux (adj : Pt → List Pt) (thr : Int) :
    Nat → Nat → List (Option TNode) → List (Option TNode)
  | 0, _, l => l
  | fuel + 1, i, l =>
    if i < l.length then
      match l.getD i none with
      | none => mergePassAux adj thr fuel (i + 1) l
      | some cur =>
        match adj cur.pos with
        | [q] =>
          if vSizeI (cur.pos - q) ≤ thr then
            match findIdxPos l q with
            | some j =>
              match l.getD j none with
              | some nb =>
                mergePassAux adj thr fuel (i + 1)
                  ((l.set j (some (nb.merge1 (some cur)))).set i none)
              | none => mergePassAux adj thr fuel (i + 1) l
            | none => mergePassAux adj thr fuel (i + 1) l
          else mergePassAux adj thr fuel (i + 1) l
        | nbrs =>
          mergePassAux adj thr fuel
            (i + 1 + (hubMerge thr cur nbrs (l.drop (i + 1))).1.length)
            (l.take i ++
              [some ((hubMerge thr cur nbrs (l.drop (i + 1))).1.foldl
                (fun c o => c.merge1 o) cur)] ++
              (hubMerge thr cur nbrs (l.drop (i + 1))).1.map
                (fun _ => (none : Option TNode)) ++
              (hubMerge thr cur nbrs (l.drop (i + 1))).2)
    else l

/-- The new position a live node ends at in the move loop of
`Tree::TreeSupport::processLayer` (TreeSupport.cpp:1027-1064): when MST
neighbours exist, `moveTowards` their truncated mean overwrites whatever
the avoidance-escape produced (exactly as in the source, where the
`moveTowards` result is assigned over `new_pos`); with no neighbours the
position is the avoidance escape (closest point when inside) or the
original position. -/
def newPosNew (g : GeomOps P) (avoid : Int → Int → P) (adj : Pt → List Pt) (m lay : Int)
    (n : TNode) : Pt :=
  if (adj n.pos).length ≠ 0 then
    moveTowardsN g n.pos (divPt ((adj n.pos).foldl (· + ·) (⟨0, 0⟩ : Pt)) (adj n.pos).length)
      (avoid n.radius lay) m
  else if g.insidePt (avoid n.radius lay) n.pos then g.findClosest n.pos (avoid n.radius lay)
  else n.pos

/-- The move loop body for one live node (TreeSupport.cpp:1027-1064): a
node inside its avoidance volume whose closest escape exceeds `max_move`
is dropped; otherwise the node moves to `newPosNew`, and is dropped if
that displacement exceeds `max_move`. -/
def moveNodeNew (g : GeomOps P) (avoid : Int → Int → P) (adj : Pt → List Pt) (m lay : Int)
    (n : TNode) : Option TNode :=
  if g.insidePt (avoid n.radius lay) n.pos ∧
      vSizeI (n.pos - g.findClosest n.pos (avoid n.radius lay)) > m then none
  else if vSizeI (newPosNew g avoid adj m lay n - n.pos) > m then none
  else some (n.withPos (newPosNew g avoid adj m lay n))

/-- The per-part distance of `Tree::TreeSupport::groupNodes`
(TreeSupport.cpp:1281-1291): zero when inside, else the squared distance
to the closest point. -/
def partDistN (g : GeomOps P) (part : P) (n : TNode) : Int :=
  if g.insidePt part n.pos then 0
  else vSize2 (n.pos - g.findClosest n.pos part)

/-- `std::min_element` over the part suffix starting at the head returns
the head exactly when no later part is strictly closer
(TreeSupport.cpp:1299-1305). -/
def argminIsHead (g : GeomOps P) (p : P) (ps : List P) (n : TNode) : Bool :=
  ps.all (fun q => ¬ (partDistN g q n < partDistN g p n))

/-- The successive `std::partition` rounds of `groupNodes`
(TreeSupport.cpp:1297-1307), one per avoidance part, with the leftover
segment from the final `iters.push_back(trees_.end())`. -/
def groupRounds (g : GeomOps P) : List P → List TNode → List (List TNode)
  | [], rest => [rest]
  | p :: ps, rest =>
    (rest.partition (fun n => argminIsHead g p ps n)).1 ::
      groupRounds g ps (rest.partition (fun n => argminIsHead g p ps n)).2

/-- `Tree::TreeSupport::groupNodes` (TreeSupport.cpp:1276-1310): group 0
holds the nodes outside `avoidance(0, layer)`; the remaining nodes are
partitioned per part by closest distance, earliest index winning ties. -/
def groupNodesNew (g : GeomOps P) (avoid0 : P) (ts : List TNode) : List (List TNode) :=
  (ts.partition (fun n => ¬ g.insidePt avoid0 n.pos)).1 ::
    groupRounds g (g.splitParts avoid0) (ts.partition (fun n => ¬ g.insidePt avoid0 n.pos)).2

/-- The oracles and parameters of the newer pipeline: the `ModelVolumes`
avoidance lookup, the MST adjacency provider, `max_move`,
`radius_increment` and `can_support_on_model`. -/
structure NewCtx (P : Type) where
  g : GeomOps P
  avoid : Int → Int → P
  mstAdj : List Pt → Pt → List Pt
  m : Int
  inc : Int
  canOnModel : Bool

/-- The layer index `processLayer` works at after the initial drop
(TreeSupport.cpp:966). -/
def layerOf (C : NewCtx P) (ts : List TNode) : Int :=
  currentLayerNew (dropNodesNew C.inc ts)

/-- The working set after the drop and the optional
`removeUnsupportableByBuildPlate` (TreeSupport.cpp:961-970). -/
def preparedNew (C : NewCtx P) (ts : List TNode) : List TNode :=
  if ¬ C.canOnModel then
    removeUnsupportableNew C.g C.avoid C.m (layerOf C ts) (dropNodesNew C.inc ts)
  else dropNodesNew C.inc ts

/-- One group's pass through the merge loop and the move loop
(TreeSupport.cpp:985-1064). -/
def groupOut (C : NewCtx P) (lay : Int) (grp : List TNode) : List (Option TNode) :=
  (mergePassAux (C.mstAdj (grp.map TNode.pos)) C.m (grp.length + 1) 0 (grp.map some)).map
    (fun o => o.bind (moveNodeNew C.g C.avoid (C.mstAdj (grp.map TNode.pos)) C.m lay))

/-- `Tree::TreeSupport::processLayer` (TreeSupport.cpp:959-1069): drop all
roots one layer, optionally remove roots unsupportable by the build
plate, group, and per group run the merge pass then the move pass;
finally erase the merged/dropped (null) entries. -/
def processLayerNew (C : NewCtx P) (ts : List TNode) : List TNode :=
  (((groupNodesNew C.g (C.avoid 0 (layerOf C ts)) (preparedNew C ts)).map
    (groupOut C (layerOf C ts))).flatten).filterMap id

/-- The descent loop of `Tree::TreeSupport::generateSupportAreas`
(TreeSupport.cpp:940-955): starting at the front (highest) contact layer,
each iteration absorbs the pending contacts whose layer is not below the
current one, processes the layer when the working set is non-empty, and
decrements; the fuel is the starting layer, so the loop runs down to
layer 1 inclusive.  Returns the iteration count and the final forest. -/
def driverLoop (C : NewCtx P) : Nat → List TNode → List TNode → Nat × List TNode
  | 0, ts, _ => (0, ts)
  | l + 1, ts, pending =>
    let lay : Int := Int.ofNat (l + 1)
    let newly := pending.takeWhile (fun n => ¬ (n.layer < lay))
    let rest := pending.dropWhile (fun n => ¬ (n.layer < lay))
    let ts1 := ts ++ newly
    let ts2 := if ts1.length ≠ 0 then processLayerNew C ts1 else ts1
    let r := driverLoop C l ts2 rest
    (r.1 + 1, r.2)

/-- `Tree::TreeSupport::generateSupportAreas` (TreeSupport.cpp:936-957)
up to `drawCircles`: contacts arrive sorted by layer, descending;
`front()` on an empty contact vector would be undefined in the source and
is modelled as doing nothing. -/
def generateSupportAreasNew (C : NewCtx P) (contacts : List TNode) : Nat × List TNode :=
  match contacts with
  | [] => (0, [])
  | c :: cs => driverLoop C c.layer.toNat [] (c :: cs)

/-- All roots of the working set sit on one layer (the invariant asserted
by `currentLayer`). -/
def AllAtLayer (z : Int) (ts : List TNode) : Prop := ∀ n ∈ ts, n.layer = z

/-- Contacts sorted by layer, descending (the `std::sort` of
TreeSupport.cpp:1117). -/
def SortedDesc (ts : List TNode) : Prop :=
  List.Pairwise (fun a b => b.layer ≤ a.layer) ts

/-- The highest contact layer of a contact list. -/
def maxLayerNew (ts : List TNode) : Int := ts.foldl (fun acc n => max acc n.layer) 0

end NewPipeline

/-- A degenerate concrete geometry over `Unit`: every polygon set is the
empty region, all boolean ops return it, no point is inside anything, and
the point-moving helpers leave points unchanged.  Used to instantiate
abstract theorems on concrete inputs. -/
def unitOpsG : GeomOps Unit where
  union := fun _ _ => ()
  offs := fun _ _ _ => ()
  smooth := fun _ _ => ()
  diff := fun _ _ => ()
  inter := fun _ _ => ()
  insidePt := fun _ _ => false
  insideBorder := fun _ _ => false
  splitParts := fun _ => []
  findClosest := fun p _ => p
  moveOutside := fun _ p _ _ => p
  moveOutside3 := fun _ p _ => p
  moveInsideMax := fun _ p _ _ => p
  moveInsideU := fun _ p => p
  ensureInOut := fun _ p _ _ => p
  nrm := fun _ _ => ⟨0, 0⟩
  toParts := fun _ => []
  simplifyP := fun p _ _ => p
  unionSelf := fun p => p
  padd := fun _ _ => ()
  em := ()

/-- A half-plane region `{p | p.x ≤ c}`, concretely instantiating the
abstract polygon type with its threshold.  `hpMoveOutside` is modelled
from the spec: `PolygonUtils::moveOutside` (utils/polygonUtils, not part
of this snapshot) pushes a point that lies inside the region out past the
nearest boundary point with the given `extra` clearance, provided that
point is within the squared search budget `maxDist2`; a point already
outside is left in place when the boundary is beyond the budget. -/
def hpMoveOutside (c : Int) (p : Pt) (extra maxDist2 : Int) : Pt :=
  if p.x ≤ c then
    if (c + extra - p.x) * (c + extra - p.x) ≤ maxDist2 then ⟨c + extra, p.y⟩ else p
  else p

/-- Geometry over half-plane regions (`P := Int`, the threshold).  Inside
test, boundary projection and `moveOutside` are the exact half-plane
semantics; the remaining operations are irrelevant to the paths exercised
and keep the region unchanged. -/
def hpOpsG : GeomOps Int where
  union := fun a b => max a b
  offs := fun a d _ => a + d
  smooth := fun a _ => a
  diff := fun a _ => a
  inter := fun a b => min a b
  insidePt := fun c p => p.x ≤ c
  insideBorder := fun c p => p.x ≤ c
  splitParts := fun c => [c]
  findClosest := fun p c => ⟨c, p.y⟩
  moveOutside := hpMoveOutside
  moveOutside3 := fun c p _ => if p.x ≤ c then ⟨c + 1, p.y⟩ else p
  moveInsideMax := fun _ p _ _ => p
  moveInsideU := fun _ p => p
  ensureInOut := fun _ p _ _ => p
  nrm := fun _ _ => ⟨0, 0⟩
  toParts := fun c => [c]
  simplifyP := fun c _ _ => c
  unionSelf := fun c => c
  padd := fun a b => max a b
  em := -1000000000

/-! ## Theorems -/

/-! ### Point algebra -/

theorem pt_add_def (a b : Pt) : a + b = ⟨a.x + b.x, a.y + b.y⟩ := rfl

theorem pt_sub_def (a b : Pt) : a - b = ⟨a.x - b.x, a.y - b.y⟩ := rfl

theorem pt_add_sub_cancel (p v : Pt) : (p + v) - p = v := by
  cases p; cases v; simp [pt_add_def, pt_sub_def]

theorem pt_sub_split (a b c : Pt) : a - c = (b - c) + (a - b) := by
  cases a; cases b; cases c
  simp only [pt_add_def, pt_sub_def, Pt.mk.injEq]
  constructor <;> ring

theorem vSize2_nonneg (p : Pt) : 0 ≤ vSize2 p := by
  have hx := mul_self_nonneg p.x
  have hy := mul_self_nonneg p.y
  unfold vSize2; linarith

theorem vSize2_self_sub (p : Pt) : vSize2 (p - p) = 0 := by
  cases p; simp [pt_sub_def, vSize2]

/-- Triangle inequality for squared integer norms: if `|a| ≤ A` and
`|b| ≤ B` (as squares), then `|a + b| ≤ A + B` (as squares). -/
theorem pt_add_sq_le (a b : Pt) (A B : Int) (hA : 0 ≤ A) (hB : 0 ≤ B)
    (ha : vSize2 a ≤ A * A) (hb : vSize2 b ≤ B * B) :
    vSize2 (a + b) ≤ (A + B) * (A + B) := by
  have hcs : (a.x * b.x + a.y * b.y) ^ 2 ≤ vSize2 a * vSize2 b := by
    unfold vSize2
    nlinarith [sq_nonneg (a.x * b.y - a.y * b.x)]
  have hprod : vSize2 a * vSize2 b ≤ (A * A) * (B * B) := by
    have := vSize2_nonneg a
    have := vSize2_nonneg b
    nlinarith
  have hs : a.x * b.x + a.y * b.y ≤ A * B := by
    nlinarith [mul_nonneg hA hB, sq_nonneg (a.x * b.x + a.y * b.y + A * B)]
  have hexp : vSize2 (a + b) = vSize2 a + 2 * (a.x * b.x + a.y * b.y) + vSize2 b := by
    cases a; cases b; simp [pt_add_def, vSize2]; ring
  rw [hexp]; nlinarith

/-! ### ModelVolumes: cache behaviour -/

section MVTheorems

variable {P : Type}

theorem cacheFind_cons_self (k : RLKey) (v : P) (c : List (RLKey × P)) :
    cacheFind (((k, v)) :: c) k = some v := by
  simp [cacheFind, List.find?]

theorem cacheFind_cons_ne (k k' : RLKey) (v : P) (c : List (RLKey × P)) (h : k' ≠ k) :
    cacheFind ((k, v) :: c) k' = cacheFind c k' := by
  simp [cacheFind, List.find?, h.symm]

/-- Entries already present survive (with the same value) any later
insertion of an absent key. -/
def SubCache (a b : List (RLKey × P)) : Prop :=
  ∀ k v, cacheFind a k = some v → cacheFind b k = some v

theorem subCache_refl (a : List (RLKey × P)) : SubCache a a := fun _ _ h => h

theorem subCache_trans {a b c : List (RLKey × P)} (h1 : SubCache a b) (h2 : SubCache b c) :
    SubCache a c := fun k v h => h2 k v (h1 k v h)

theorem SubCache.cons {c : List (RLKey × P)} {k : RLKey} {v : P}
    (h : cacheFind c k = none) : SubCache c ((k, v) :: c) := by
  intro k' v' h'
  rcases eq_or_ne k' k with rfl | hne
  · rw [h] at h'; exact absurd h' (by simp)
  · rw [cacheFind_cons_ne _ _ _ _ hne]; exact h'

/-- No cache entry is ever overwritten or removed: each call only inserts
absent keys. -/
def MVPreserved (s t : MVState P) : Prop :=
  SubCache s.cc t.cc ∧ SubCache s.ac t.ac ∧ SubCache s.ic t.ic

theorem mvPreserved_refl (s : MVState P) : MVPreserved s s :=
  ⟨subCache_refl _, subCache_refl _, subCache_refl _⟩

theorem mvPreserved_trans {s t u : MVState P} (h1 : MVPreserved s t) (h2 : MVPreserved t u) :
    MVPreserved s u :=
  ⟨subCache_trans h1.1 h2.1, subCache_trans h1.2.1 h2.2.1, subCache_trans h1.2.2 h2.2.2⟩

variable (g : GeomOps P) (outl : Nat → P) (border : P) (xy mmove : Int)

/-- Unfolding equation: cache hit of `collision`. -/
theorem collisionM_hit (r : Int) (z : Nat) (s : MVState P) (v : P)
    (h : cacheFind s.cc (r, z) = some v) :
    collisionM g outl border xy r z s = (v, s) := by
  unfold collisionM; rw [h]

/-- Unfolding equation: cache miss of `collision`. -/
theorem collisionM_miss (r : Int) (z : Nat) (s : MVState P)
    (h : cacheFind s.cc (r, z) = none) :
    collisionM g outl border xy r z s =
      (g.offs (g.union (outl z) border) (xy + r) JoinKind.round,
       { s with cc := ((r, z), g.offs (g.union (outl z) border) (xy + r) JoinKind.round)
           :: s.cc }) := by
  unfold collisionM; rw [h]

/-- Unfolding equation: cache hit of `avoidance`. -/
theorem avoidanceM_hit (r : Int) (z : Nat) (s : MVState P) (v : P)
    (h : cacheFind s.ac (r, z) = some v) :
    avoidanceM g outl border xy mmove r z s = (v, s) := by
  cases z <;> (unfold avoidanceM; rw [h])

/-- Unfolding equation: cache miss of `avoidance` at layer 0. -/
theorem avoidanceM_miss_zero (r : Int) (s : MVState P)
    (h : cacheFind s.ac (r, 0) = none) :
    avoidanceM g outl border xy mmove r 0 s =
      ((collisionM g outl border xy r 0 s).1,
       { (collisionM g outl border xy r 0 s).2 with
           ac := ((r, 0), (collisionM g outl border xy r 0 s).1)
             :: (collisionM g outl border xy r 0 s).2.ac }) := by
  unfold avoidanceM; rw [h]

/-- Unfolding equation: cache miss of `avoidance` at layer `z + 1`. -/
theorem avoidanceM_miss_succ (r : Int) (z : Nat) (s : MVState P)
    (h : cacheFind s.ac (r, z + 1) = none) :
    avoidanceM g outl border xy mmove r (z + 1) s =
      (g.union
         (g.smooth (g.offs (avoidanceM g outl border xy mmove r z s).1 (-mmove) JoinKind.miter) 5)
         (collisionM g outl border xy r (z + 1) (avoidanceM g outl border xy mmove r z s).2).1,
       { (collisionM g outl border xy r (z + 1) (avoidanceM g outl border xy mmove r z s).2).2 with
           ac := ((r, z + 1),
             g.union
               (g.smooth (g.offs (avoidanceM g outl border xy mmove r z s).1 (-mmove) JoinKind.miter) 5)
               (collisionM g outl border xy r (z + 1) (avoidanceM g outl border xy mmove r z s).2).1)
             :: (collisionM g outl border xy r (z + 1) (avoidanceM g outl border xy mmove r z s).2).2.ac }) := by
  conv_lhs => rw [avoidanceM]
  rw [h]

/-- Unfolding equation: cache hit of `internal_model`. -/
theorem internalM_hit (r : Int) (z : Nat) (s : MVState P) (v : P)
    (h : cacheFind s.ic (r, z) = some v) :
    internalM g outl border xy mmove r z s = (v, s) := by
  unfold internalM; rw [h]

/-- Unfolding equation: cache miss of `internal_model`. -/
theorem internalM_miss (r : Int) (z : Nat) (s : MVState P)
    (h : cacheFind s.ic (r, z) = none) :
    internalM g outl border xy mmove r z s =
      (g.diff (avoidanceM g outl border xy mmove r z s).1
         (collisionM g outl border xy r z (avoidanceM g outl border xy mmove r z s).2).1,
       { (collisionM g outl border xy r z (avoidanceM g outl border xy mmove r z s).2).2 with
           ic := ((r, z),
             g.diff (avoidanceM g outl border xy mmove r z s).1
               (collisionM g outl border xy r z (avoidanceM g outl border xy mmove r z s).2).1)
             :: (collisionM g outl border xy r z (avoidanceM g outl border xy mmove r z s).2).2.ic }) := by
  unfold internalM; rw [h]

theorem collisionM_pres (r : Int) (z : Nat) (s : MVState P) :
    MVPreserved s (collisionM g outl border xy r z s).2 := by
  cases h : cacheFind s.cc (r, z) with
  | some v => rw [collisionM_hit g outl border xy r z s v h]; exact mvPreserved_refl s
  | none =>
    rw [collisionM_miss g outl border xy r z s h]
    exact ⟨SubCache.cons h, subCache_refl _, subCache_refl _⟩

theorem collisionM_cached (r : Int) (z : Nat) (s : MVState P) :
    cacheFind (collisionM g outl border xy r z s).2.cc (r, z) =
      some (collisionM g outl border xy r z s).1 := by
  cases h : cacheFind s.cc (r, z) with
  | some v => rw [collisionM_hit g outl border xy r z s v h]; exact h
  | none => rw [collisionM_miss g outl border xy r z s h]; exact cacheFind_cons_self _ _ _

theorem collisionM_ac (r : Int) (z : Nat) (s : MVState P) :
    (collisionM g outl border xy r z s).2.ac = s.ac := by
  cases h : cacheFind s.cc (r, z) with
  | some v => rw [collisionM_hit g outl border xy r z s v h]
  | none => rw [collisionM_miss g outl border xy r z s h]

theorem collisionM_ic (r : Int) (z : Nat) (s : MVState P) :
    (collisionM g outl border xy r z s).2.ic = s.ic := by
  cases h : cacheFind s.cc (r, z) with
  | some v => rw [collisionM_hit g outl border xy r z s v h]
  | none => rw [collisionM_miss g outl border xy r z s h]

/-- `avoidance` never inserts an avoidance-cache key above the layer it
was asked for. -/
theorem avoidanceM_new_keys (r : Int) (z : Nat) (s : MVState P) (k : RLKey)
    (h : cacheFind s.ac k = none) (hz : z < k.2) :
    cacheFind (avoidanceM g outl border xy mmove r z s).2.ac k = none := by
  induction z generalizing s with
  | zero =>
    cases hc : cacheFind s.ac (r, 0) with
    | some v => rw [avoidanceM_hit g outl border xy mmove r 0 s v hc]; exact h
    | none =>
      have hk : k ≠ (r, 0) := by
        intro he; rw [he] at hz; exact absurd hz (by simp)
      rw [avoidanceM_miss_zero g outl border xy mmove r s hc]
      simp only []
      rw [cacheFind_cons_ne _ _ _ _ hk, collisionM_ac]
      exact h
  | succ z ih =>
    cases hc : cacheFind s.ac (r, z + 1) with
    | some v => rw [avoidanceM_hit g outl border xy mmove r (z + 1) s v hc]; exact h
    | none =>
      have hk : k ≠ (r, z + 1) := by
        intro he; rw [he] at hz; exact absurd hz (by omega)
      rw [avoidanceM_miss_succ g outl border xy mmove r z s hc]
      simp only []
      rw [cacheFind_cons_ne _ _ _ _ hk, collisionM_ac]
      exact ih s h (Nat.lt_of_succ_lt hz)

/-- `avoidance` never touches the internal-model cache. -/
theorem avoidanceM_ic (r : Int) (z : Nat) (s : MVState P) :
    (avoidanceM g outl border xy mmove r z s).2.ic = s.ic := by
  induction z generalizing s with
  | zero =>
    cases hc : cacheFind s.ac (r, 0) with
    | some v => rw [avoidanceM_hit g outl border xy mmove r 0 s v hc]
    | none =>
      rw [avoidanceM_miss_zero g outl border xy mmove r s hc]
      simp only []
      rw [collisionM_ic]
  | succ z ih =>
    cases hc : cacheFind s.ac (r, z + 1) with
    | some v => rw [avoidanceM_hit g outl border xy mmove r (z + 1) s v hc]
    | none =>
      rw [avoidanceM_miss_succ g outl border xy mmove r z s hc]
      simp only []
      rw [collisionM_ic, ih]

theorem avoidanceM_pres (r : Int) (z : Nat) (s : MVState P) :
    MVPreserved s (avoidanceM g outl border xy mmove r z s).2 := by
  induction z generalizing s with
  | zero =>
    cases hc : cacheFind s.ac (r, 0) with
    | some v => rw [avoidanceM_hit g outl border xy mmove r 0 s v hc]; exact mvPreserved_refl s
    | none =>
      rw [avoidanceM_miss_zero g outl border xy mmove r s hc]
      have hp := collisionM_pres g outl border xy r 0 s
      refine ⟨hp.1, ?_, hp.2.2⟩
      have hnone : cacheFind (collisionM g outl border xy r 0 s).2.ac (r, 0) = none := by
        rw [collisionM_ac]; exact hc
      have := SubCache.cons (v := (collisionM g outl border xy r 0 s).1) hnone
      rw [collisionM_ac g outl border xy r 0 s] at this ⊢
      exact this
  | succ z ih =>
    cases hc : cacheFind s.ac (r, z + 1) with
    | some v =>
      rw [avoidanceM_hit g outl border xy mmove r (z + 1) s v hc]; exact mvPreserved_refl s
    | none =>
      rw [avoidanceM_miss_succ g outl border xy mmove r z s hc]
      have ha := ih s
      have hpc := collisionM_pres g outl border xy r (z + 1)
        ((avoidanceM g outl border xy mmove r z s).2)
      have hnone : cacheFind
          ((collisionM g outl border xy r (z + 1)
            (avoidanceM g outl border xy mmove r z s).2).2).ac (r, z + 1) = none := by
        rw [collisionM_ac]
        exact avoidanceM_new_keys g outl border xy mmove r z s (r, z + 1) hc (by omega)
      exact mvPreserved_trans (mvPreserved_trans ha hpc) ⟨subCache_refl _, SubCache.cons hnone, subCache_refl _⟩

theorem avoidanceM_cached (r : Int) (z : Nat) (s : MVState P) :
    cacheFind (avoidanceM g outl border xy mmove r z s).2.ac (r, z) =
      some (avoidanceM g outl border xy mmove r z s).1 := by
  cases z with
  | zero =>
    cases hc : cacheFind s.ac (r, 0) with
    | some v => rw [avoidanceM_hit g outl border xy mmove r 0 s v hc]; exact hc
    | none =>
      rw [avoidanceM_miss_zero g outl border xy mmove r s hc]
      exact cacheFind_cons_self _ _ _
  | succ z =>
    cases hc : cacheFind s.ac (r, z + 1) with
    | some v => rw [avoidanceM_hit g outl border xy mmove r (z + 1) s v hc]; exact hc
    | none =>
      rw [avoidanceM_miss_succ g outl border xy mmove r z s hc]
      exact cacheFind_cons_self _ _ _

theorem internalM_pres (r : Int) (z : Nat) (s : MVState P) :
    MVPreserved s (internalM g outl border xy mmove r z s).2 := by
  cases hc : cacheFind s.ic (r, z) with
  | some v => rw [internalM_hit g outl border xy mmove r z s v hc]; exact mvPreserved_refl s
  | none =>
    rw [internalM_miss g outl border xy mmove r z s hc]
    have ha := avoidanceM_pres g outl border xy mmove r z s
    have hpc := collisionM_pres g outl border xy r z
      ((avoidanceM g outl border xy mmove r z s).2)
    have hnone : cacheFind
        ((collisionM g outl border xy r z (avoidanceM g outl border xy mmove r z s).2).2).ic
          (r, z) = none := by
      rw [collisionM_ic, avoidanceM_ic]
      exact hc
    exact mvPreserved_trans (mvPreserved_trans ha hpc) ⟨subCache_refl _, subCache_refl _, SubCache.cons hnone⟩

theorem internalM_cached (r : Int) (z : Nat) (s : MVState P) :
    cacheFind (internalM g outl border xy mmove r z s).2.ic (r, z) =
      some (internalM g outl border xy mmove r z s).1 := by
  cases hc : cacheFind s.ic (r, z) with
  | some v => rw [internalM_hit g outl border xy mmove r z s v hc]; exact hc
  | none =>
    rw [internalM_miss g outl border xy mmove r z s hc]
    exact cacheFind_cons_self _ _ _

theorem cacheFind_cons_cases {c : List (RLKey × P)} {k0 k : RLKey} {v0 v : P}
    (h : cacheFind ((k0, v0) :: c) k = some v) :
    (k = k0 ∧ v = v0) ∨ cacheFind c k = some v := by
  rcases eq_or_ne k k0 with rfl | hne
  · left
    rw [cacheFind_cons_self] at h
    exact ⟨rfl, (Option.some.inj h).symm⟩
  · right
    rwa [cacheFind_cons_ne _ _ _ _ hne] at h

/-- Every cached value equals the specification value for its key. -/
def Consistent (s : MVState P) : Prop :=
  (∀ k v, cacheFind s.cc k = some v → v = collisionSpec g outl border xy k.1 k.2) ∧
  (∀ k v, cacheFind s.ac k = some v → v = avoidanceSpec g outl border xy mmove k.1 k.2) ∧
  (∀ k v, cacheFind s.ic k = some v → v = internalSpec g outl border xy mmove k.1 k.2)

theorem consistent_empty : Consistent g outl border xy mmove (mvEmpty : MVState P) :=
  ⟨fun k v h => by simp [cacheFind, mvEmpty] at h,
   fun k v h => by simp [cacheFind, mvEmpty] at h,
   fun k v h => by simp [cacheFind, mvEmpty] at h⟩

theorem collisionM_correct (r : Int) (z : Nat) (s : MVState P)
    (hs : Consistent g outl border xy mmove s) :
    (collisionM g outl border xy r z s).1 = collisionSpec g outl border xy r z ∧
      Consistent g outl border xy mmove (collisionM g outl border xy r z s).2 := by
  cases hc : cacheFind s.cc (r, z) with
  | some v =>
    rw [collisionM_hit g outl border xy r z s v hc]
    exact ⟨hs.1 (r, z) v hc, hs⟩
  | none =>
    rw [collisionM_miss g outl border xy r z s hc]
    refine ⟨rfl, ?_, hs.2.1, hs.2.2⟩
    intro k v h
    rcases cacheFind_cons_cases h with ⟨rfl, rfl⟩ | hold
    · rfl
    · exact hs.1 k v hold

theorem avoidanceM_correct (r : Int) (z : Nat) (s : MVState P)
    (hs : Consistent g outl border xy mmove s) :
    (avoidanceM g outl border xy mmove r z s).1 = avoidanceSpec g outl border xy mmove r z ∧
      Consistent g outl border xy mmove (avoidanceM g outl border xy mmove r z s).2 := by
  induction z generalizing s with
  | zero =>
    cases hc : cacheFind s.ac (r, 0) with
    | some v =>
      rw [avoidanceM_hit g outl border xy mmove r 0 s v hc]
      exact ⟨hs.2.1 (r, 0) v hc, hs⟩
    | none =>
      rw [avoidanceM_miss_zero g outl border xy mmove r s hc]
      have hcc := collisionM_correct g outl border xy mmove r 0 s hs
      refine ⟨hcc.1, hcc.2.1, ?_, hcc.2.2.2⟩
      intro k v h
      rcases cacheFind_cons_cases h with ⟨rfl, rfl⟩ | hold
      · exact hcc.1
      · exact hcc.2.2.1 k v hold
  | succ z ih =>
    cases hc : cacheFind s.ac (r, z + 1) with
    | some v =>
      rw [avoidanceM_hit g outl border xy mmove r (z + 1) s v hc]
      exact ⟨hs.2.1 (r, z + 1) v hc, hs⟩
    | none =>
      rw [avoidanceM_miss_succ g outl border xy mmove r z s hc]
      have hprev := ih s hs
      have hcc := collisionM_correct g outl border xy mmove r (z + 1)
        ((avoidanceM g outl border xy mmove r z s).2) hprev.2
      have hval :
          g.union
            (g.smooth (g.offs (avoidanceM g outl border xy mmove r z s).1 (-mmove) JoinKind.miter) 5)
            (collisionM g outl border xy r (z + 1)
              (avoidanceM g outl border xy mmove r z s).2).1 =
            avoidanceSpec g outl border xy mmove r (z + 1) := by
        rw [hprev.1, hcc.1]; rfl
      refine ⟨hval, hcc.2.1, ?_, hcc.2.2.2⟩
      intro k v h
      rcases cacheFind_cons_cases h with ⟨rfl, rfl⟩ | hold
      · exact hval
      · exact hcc.2.2.1 k v hold

theorem internalM_correct (r : Int) (z : Nat) (s : MVState P)
    (hs : Consistent g outl border xy mmove s) :
    (internalM g outl border xy mmove r z s).1 = internalSpec g outl border xy mmove r z ∧
      Consistent g outl border xy mmove (internalM g outl border xy mmove r z s).2 := by
  cases hc : cacheFind s.ic (r, z) with
  | some v =>
    rw [internalM_hit g outl border xy mmove r z s v hc]
    exact ⟨hs.2.2 (r, z) v hc, hs⟩
  | none =>
    rw [internalM_miss g outl border xy mmove r z s hc]
    have hav := avoidanceM_correct g outl border xy mmove r z s hs
    have hcc := collisionM_correct g outl border xy mmove r z
      ((avoidanceM g outl border xy mmove r z s).2) hav.2
    have hval :
        g.diff (avoidanceM g outl border xy mmove r z s).1
          (collisionM g outl border xy r z (avoidanceM g outl border xy mmove r z s).2).1 =
          internalSpec g outl border xy mmove r z := by
      rw [hav.1, hcc.1]; rfl
    refine ⟨hval, hcc.2.1, hcc.2.2.1, ?_⟩
    intro k v h
    rcases cacheFind_cons_cases h with ⟨rfl, rfl⟩ | hold
    · exact hval
    · exact hcc.2.2.2 k v hold

theorem getLastD_range_map {α : Type} (f : Nat → α) (n : Nat) (d : α) :
    ((List.range (n + 1)).map f).getLastD d = f n := by
  rw [List.range_succ, List.map_append]
  simp

theorem getD_range_map {α : Type} (n s : Nat) (f : Nat → α) (d : α) (h : s < n) :
    ((List.range n).map f).getD s d = f s := by
  simp [List.getD, List.getElem?_map, List.getElem?_range h]

/-- The propagate loop only reads the collision row at layers up to its
bound. -/
theorem propagateRow_congr (c1 c2 : Nat → P) (n : Nat) (h : ∀ w, w ≤ n → c1 w = c2 w) :
    propagateRow g mmove c1 n = propagateRow g mmove c2 n := by
  induction n with
  | zero => simp [propagateRow, h 0 (Nat.le_refl 0)]
  | succ n ih =>
    unfold propagateRow
    rw [ih (fun w hw => h w (Nat.le_trans hw (Nat.le_succ n))), h (n + 1) (Nat.le_refl _)]

/-- The iterative loop of `propagateCollisionAreas` computes exactly the
avoidance recurrence, layer by layer. -/
theorem propagateRow_eq (r : Int) (n : Nat) :
    propagateRow g mmove (collisionSpec g outl border xy r) n =
      (List.range (n + 1)).map (avoidanceSpec g outl border xy mmove r) := by
  induction n with
  | zero =>
    rw [show List.range (0 + 1) = [0] by decide]
    rfl
  | succ n ih =>
    unfold propagateRow
    rw [ih]
    show List.map (avoidanceSpec g outl border xy mmove r) (List.range (n + 1)) ++
        [g.union
          (g.smooth
            (g.offs
              ((List.map (avoidanceSpec g outl border xy mmove r) (List.range (n + 1))).getLastD
                g.em)
              (-mmove) JoinKind.miter) 5)
          (collisionSpec g outl border xy r (n + 1))] = _

    rw [show (List.range (n + 1)).map (avoidanceSpec g outl border xy mmove r) =
        List.map (avoidanceSpec g outl border xy mmove r) (List.range (n + 1)) from rfl] at *
    rw [show List.map (avoidanceSpec g outl border xy mmove r) (List.range (n + 1)) =
        (List.range (n + 1)).map (avoidanceSpec g outl border xy mmove r) from rfl]
    rw [getLastD_range_map]
    rw [show List.range (n + 1 + 1) = List.range (n + 1) ++ [n + 1] from List.range_succ n.succ,
      List.map_append]
    rfl

/-- The inner loop of `collisionAreas` computes exactly the offsetted
union for every layer. -/
theorem collisionRow_eq (r : Int) (n : Nat) :
    collisionRow g outl border xy r n =
      (List.range n).map (collisionSpec g outl border xy r) := by
  induction n with
  | zero => rfl
  | succ n ih =>
    unfold collisionRow
    rw [ih, show List.range (n + 1) = List.range n ++ [n] from List.range_succ n,
      List.map_append]
    rfl

variable (res : Int) (numSamples numLayers : Nat) (mstAdj : List Pt → Pt → List Pt)
variable (rom : Bool) (brn : Nat → Int) (sOf : Nat → Nat)

theorem buildOldCtx_coll (s z : Nat) (hs : s < numSamples) (hz : z < numLayers) :
    (buildOldCtx g outl border xy mmove res numSamples numLayers mstAdj rom brn sOf).coll s z =
      collisionSpec g outl border xy (Int.ofNat s * res) z := by
  show (((List.range numSamples).map
      (fun s => collisionRow g outl border xy (Int.ofNat s * res) numLayers)).getD s []).getD
        z g.em = _
  rw [getD_range_map _ _ _ _ hs, collisionRow_eq, getD_range_map _ _ _ _ hz]

theorem buildOldCtx_avoid (s z : Nat) (hs : s < numSamples) (hz : z < numLayers)
    (hn : 1 ≤ numLayers) :
    (buildOldCtx g outl border xy mmove res numSamples numLayers mstAdj rom brn sOf).avoid s z =
      avoidanceSpec g outl border xy mmove (Int.ofNat s * res) z := by
  show ((((List.range numSamples).map
      (fun s => collisionRow g outl border xy (Int.ofNat s * res) numLayers)).map
        (fun row => propagateRow g mmove (fun w => row.getD w g.em) (numLayers - 1))).getD
          s []).getD z g.em = _
  rw [List.map_map]
  rw [getD_range_map _ _ _ _ hs]
  show (propagateRow g mmove
      (fun w => (collisionRow g outl border xy (Int.ofNat s * res) numLayers).getD w g.em)
      (numLayers - 1)).getD z g.em = _
  rw [propagateRow_congr g mmove _ (collisionSpec g outl border xy (Int.ofNat s * res))
      (numLayers - 1)
      (fun w hw => by
        rw [collisionRow_eq, getD_range_map _ _ _ _ (by omega)])]
  rw [propagateRow_eq]
  have hrange : numLayers - 1 + 1 = numLayers := by omega
  rw [hrange]
  exact getD_range_map _ _ _ _ hz

end MVTheorems

/-! ### Claims C1, C2, C8 -/

/-- Claim C1: for every radius bucket, the avoidance area satisfies the
recurrence `avoidance(r, 0) = collision(r, 0)` and
`avoidance(r, z) = union(inset(avoidance(r, z-1), -max_move).smooth(5), collision(r, z))`.
This holds for the recurrence function itself (first two conjuncts), for
the iterative table built by `propagateCollisionAreas` (third conjunct and
the two `buildOldCtx` conjuncts, at the tables actually used by
`dropNodes`), and for the memoised `ModelVolumes::avoidance` lookup
started from a fresh cache (fourth conjunct). -/
theorem C1_avoidance_recurrence {P : Type} (g : GeomOps P) (outl : Nat → P) (border : P)
    (xy mmove res r : Int) (z n numSamples numLayers s : Nat)
    (mstAdj : List Pt → Pt → List Pt) (rom : Bool) (brn : Nat → Int) (sOf : Nat → Nat)
    (hs : s < numSamples) (hz1 : z + 1 < numLayers) :
    avoidanceSpec g outl border xy mmove r 0 = collisionSpec g outl border xy r 0 ∧
    avoidanceSpec g outl border xy mmove r (z + 1) =
      g.union
        (g.smooth (g.offs (avoidanceSpec g outl border xy mmove r z) (-mmove) JoinKind.miter) 5)
        (collisionSpec g outl border xy r (z + 1)) ∧
    propagateRow g mmove (collisionSpec g outl border xy r) n =
      (List.range (n + 1)).map (avoidanceSpec g outl border xy mmove r) ∧
    (avoidanceM g outl border xy mmove r z mvEmpty).1 =
      avoidanceSpec g outl border xy mmove r z ∧
    (buildOldCtx g outl border xy mmove res numSamples numLayers mstAdj rom brn sOf).avoid s 0 =
      (buildOldCtx g outl border xy mmove res numSamples numLayers mstAdj rom brn sOf).coll s 0 ∧
    (buildOldCtx g outl border xy mmove res numSamples numLayers mstAdj rom brn sOf).avoid s
        (z + 1) =
      g.union
        (g.smooth
          (g.offs
            ((buildOldCtx g outl border xy mmove res numSamples numLayers mstAdj rom brn
              sOf).avoid s z)
            (-mmove) JoinKind.miter) 5)
        ((buildOldCtx g outl border xy mmove res numSamples numLayers mstAdj rom brn sOf).coll s
          (z + 1)) := by
  have hn : 1 ≤ numLayers := by omega
  refine ⟨rfl, rfl, propagateRow_eq g outl border xy mmove r n,
    (avoidanceM_correct g outl border xy mmove r z mvEmpty
      (consistent_empty g outl border xy mmove)).1, ?_, ?_⟩
  · rw [buildOldCtx_avoid g outl border xy mmove res numSamples numLayers mstAdj rom brn sOf s 0
        hs (by omega) hn,
      buildOldCtx_coll g outl border xy mmove res numSamples numLayers mstAdj rom brn sOf s 0
        hs (by omega)]
    rfl
  · rw [buildOldCtx_avoid g outl border xy mmove res numSamples numLayers mstAdj rom brn sOf s
        (z + 1) hs hz1 hn,
      buildOldCtx_avoid g outl border xy mmove res numSamples numLayers mstAdj rom brn sOf s z
        hs (by omega) hn,
      buildOldCtx_coll g outl border xy mmove res numSamples numLayers mstAdj rom brn sOf s
        (z + 1) hs hz1]
    rfl

theorem C1_avoidance_recurrence_witness :
    (avoidanceM unitOpsG (fun _ => ()) () 0 0 0 1 mvEmpty).1 =
      avoidanceSpec unitOpsG (fun _ => ()) () 0 0 0 1 :=
  (C1_avoidance_recurrence unitOpsG (fun _ => ()) () 0 0 0 0 1 2 2 3 0
    (fun _ _ => []) true (fun _ => 0) (fun _ => 0) (by decide) (by decide)).2.2.2.1

/-- Claim C2: for every radius and layer, the collision area is the union
of the layer outline with the machine border, offset outward by
`xy_distance + r` with round joins — for the memoised
`ModelVolumes::collision` from a fresh cache, for the row loop of
`collisionAreas`, and for the table entry at radius bucket `s` actually
used by `dropNodes` (where the bucket radius is
`radius_sample * radius_sample_resolution`). -/
theorem C2_collision_formula {P : Type} (g : GeomOps P) (outl : Nat → P) (border : P)
    (xy mmove res r : Int) (z n numSamples numLayers s : Nat)
    (mstAdj : List Pt → Pt → List Pt) (rom : Bool) (brn : Nat → Int) (sOf : Nat → Nat)
    (hs : s < numSamples) (hz : z < numLayers) :
    (collisionM g outl border xy r z mvEmpty).1 =
      g.offs (g.union (outl z) border) (xy + r) JoinKind.round ∧
    collisionRow g outl border xy r n =
      (List.range n).map (collisionSpec g outl border xy r) ∧
    (buildOldCtx g outl border xy mmove res numSamples numLayers mstAdj rom brn sOf).coll s z =
      g.offs (g.union (outl z) border) (xy + Int.ofNat s * res) JoinKind.round := by
  refine ⟨(collisionM_correct g outl border xy mmove r z mvEmpty
      (consistent_empty g outl border xy mmove)).1, collisionRow_eq g outl border xy r n, ?_⟩
  rw [buildOldCtx_coll g outl border xy mmove res numSamples numLayers mstAdj rom brn sOf s z
      hs hz]
  rfl

theorem C2_collision_formula_witness :
    (collisionM unitOpsG (fun _ => ()) () 0 0 0 mvEmpty).1 =
      unitOpsG.offs (unitOpsG.union ((fun (_ : Nat) => ()) 0) ()) (0 + 0) JoinKind.round :=
  (C2_collision_formula unitOpsG (fun _ => ()) () 0 0 0 0 0 2 1 1 0
    (fun _ _ => []) true (fun _ => 0) (fun _ => 0) (by decide) (by decide)).1

/-- Claim C8: `ModelVolumes` lookups are referentially transparent —
calling `collision`, `avoidance` or `internal_model` again with the same
key (in the state the first call produced) returns the same polygons, and
every call preserves all previously inserted cache entries unchanged
(values are never mutated after insertion). -/
theorem C8_referential_transparency {P : Type} (g : GeomOps P) (outl : Nat → P) (border : P)
    (xy mmove r : Int) (z : Nat) (s : MVState P) :
    (collisionM g outl border xy r z (collisionM g outl border xy r z s).2).1 =
      (collisionM g outl border xy r z s).1 ∧
    (avoidanceM g outl border xy mmove r z (avoidanceM g outl border xy mmove r z s).2).1 =
      (avoidanceM g outl border xy mmove r z s).1 ∧
    (internalM g outl border xy mmove r z (internalM g outl border xy mmove r z s).2).1 =
      (internalM g outl border xy mmove r z s).1 ∧
    MVPreserved s (collisionM g outl border xy r z s).2 ∧
    MVPreserved s (avoidanceM g outl border xy mmove r z s).2 ∧
    MVPreserved s (internalM g outl border xy mmove r z s).2 := by
  refine ⟨?_, ?_, ?_, collisionM_pres g outl border xy r z s,
    avoidanceM_pres g outl border xy mmove r z s, internalM_pres g outl border xy mmove r z s⟩
  · rw [collisionM_hit g outl border xy r z _ _ (collisionM_cached g outl border xy r z s)]
  · rw [avoidanceM_hit g outl border xy mmove r z _ _
      (avoidanceM_cached g outl border xy mmove r z s)]
  · rw [internalM_hit g outl border xy mmove r z _ _
      (internalM_cached g outl border xy mmove r z s)]

/-! ### Claim C3 -/

theorem truncToCoord_nonpos (x : ℝ) (h : x ≤ 0) : truncToCoord x ≤ 0 := by
  unfold truncToCoord
  split
  · next h0 =>
    have hx : x = 0 := le_antisymm h h0
    rw [hx]
    simp
  · calc ⌈x⌉ ≤ ⌈(0 : ℝ)⌉ := Int.ceil_le_ceil h
      _ = 0 := by simp

/-- Claim C3 (code bug evidence): at `support_tree_angle = 2` radians
(≈ 114.6°, i.e. at least 90°) with `layer_height = 200`, the sites
`TreeSupport::dropNodes` and `Tree::TreeParams` do **not** clamp the move
limit to the maximum coordinate — their guard compares the radian value
against the literal `90`, which every normalized angle (< 2π) satisfies —
and instead produce `tan(2)·200`, a non-positive value; only
`propagateCollisionAreas`, whose guard compares against `τ/4 = π/2`,
clamps as the claim demands.  The three sites therefore disagree on the
same documented quantity. -/
theorem C3_maxmove_radians_bug :
    Real.pi / 2 ≤ 2 ∧ (2 : ℝ) < 2 * Real.pi ∧
    maxMoveDropNodes 2 200 ≤ 0 ∧
    maxMoveTreeParams 2 200 ≤ 0 ∧
    maxMovePropagate 2 200 = coordMaxI ∧
    maxMoveDropNodes 2 200 ≠ maxMovePropagate 2 200 ∧
    maxMoveTreeParams 2 200 ≠ maxMovePropagate 2 200 := by
  have hpiu : Real.pi < 3.15 := Real.pi_lt_d2
  have hpil : 3.141592 < Real.pi := Real.pi_gt_d6
  have hhalf : Real.pi / 2 ≤ 2 := by linarith
  have hsin : 0 < Real.sin 2 := Real.sin_pos_of_pos_of_lt_pi (by norm_num) (by linarith)
  have hcos : Real.cos 2 < 0 :=
    Real.cos_neg_of_pi_div_two_lt_of_lt (by linarith) (by linarith)
  have htan : Real.tan 2 < 0 := by
    rw [Real.tan_eq_sin_div_cos]
    exact div_neg_of_pos_of_neg hsin hcos
  have hprod : Real.tan 2 * 200 ≤ 0 := by nlinarith
  have hdrop : maxMoveDropNodes 2 200 ≤ 0 := by
    unfold maxMoveDropNodes
    rw [if_pos (by norm_num : (2 : ℝ) < 90)]
    exact truncToCoord_nonpos _ hprod
  have hparams : maxMoveTreeParams 2 200 ≤ 0 := by
    unfold maxMoveTreeParams
    rw [if_pos (by norm_num : (2 : ℝ) < 90)]
    exact truncToCoord_nonpos _ hprod
  have hprop : maxMovePropagate 2 200 = coordMaxI := by
    unfold maxMovePropagate
    rw [if_neg]
    intro hlt
    have : 2 * Real.pi / 4 = Real.pi / 2 := by ring
    rw [this] at hlt
    linarith
  have hmaxpos : (0 : Int) < coordMaxI := by norm_num [coordMaxI]
  refine ⟨hhalf, by linarith, hdrop, hparams, hprop, ?_, ?_⟩
  · rw [hprop]; omega
  · rw [hprop]; omega

/-! ### Claim C4 -/

section MoveBounds

variable {P : Type}

theorem capDiff_disp (C : OldCtx P) (nodePos moved : Pt) (hm : 0 ≤ C.m)
    (hnrm : ∀ (v : Pt) (len : Int), 0 ≤ len → vSize2 (C.g.nrm v len) ≤ len * len) :
    vSize2 (capDiff C nodePos moved - nodePos) ≤ C.m * C.m := by
  unfold capDiff
  split
  · rw [pt_add_sub_cancel]
    exact hnrm _ _ hm
  · next h =>
    rw [pt_add_sub_cancel]
    omega

theorem guideAdjust_disp (C : OldCtx P) (z sIdx : Nat) (nodePos query target : Pt)
    (hm : 0 ≤ C.m)
    (hnrm : ∀ (v : Pt) (len : Int), 0 ≤ len → vSize2 (C.g.nrm v len) ≤ len * len) :
    vSize2 (guideAdjust C z sIdx nodePos query target - nodePos) ≤ C.m * C.m :=
  capDiff_disp C nodePos _ hm hnrm

theorem meanStep_disp (C : OldCtx P) (nodePos : Pt) (nbrs : List Pt) (hm : 0 ≤ C.m)
    (hnrm : ∀ (v : Pt) (len : Int), 0 ≤ len → vSize2 (C.g.nrm v len) ≤ len * len) :
    vSize2 (meanStep C nodePos nbrs - nodePos) ≤ C.m * C.m := by
  unfold meanStep
  split
  · split
    · next h =>
      rw [pt_add_sub_cancel]
      exact h
    · rw [pt_add_sub_cancel]
      exact hnrm _ _ hm
  · rw [vSize2_self_sub]
    exact mul_self_nonneg C.m

theorem withPos_pos (n : TNode) (p : Pt) : (n.withPos p).pos = p := by
  cases n; rfl

theorem moveNodeNew_disp (g : GeomOps P) (avoid : Int → Int → P) (adj : Pt → List Pt)
    (m lay : Int) (n n' : TNode) (h : moveNodeNew g avoid adj m lay n = some n') :
    vSizeI (n'.pos - n.pos) ≤ m := by
  unfold moveNodeNew at h
  split at h
  · exact absurd h (by simp)
  · split at h
    · exact absurd h (by simp)
    · next hle =>
      have : n' = n.withPos (newPosNew g avoid adj m lay n) := (Option.some.inj h).symm
      rw [this, withPos_pos]
      omega

/-- The half-plane geometry of the counterexample: `avoidance` is the
half-plane `x ≤ 2000` at every radius sample and layer, the node is
alone (no MST neighbours), `max_move = 2000` and
`radius_sample_resolution = 1000`. -/
def cexCtxC4 : OldCtx Int :=
  { g := hpOpsG, coll := fun _ _ => hpOpsG.em, avoid := fun _ _ => 2000,
    guide := fun _ _ => hpOpsG.em, mstAdj := fun _ _ => [], m := 2000, res := 1000,
    restsOnModel := true, brn := fun _ => 0, sampleOf := fun _ => 0 }

/-- One to-buildplate contact node at the origin on layer 1. -/
def cexForestC4 : Forest :=
  ⟨[(0, ⟨⟨0, 0⟩, 0, false, 0, true, none, []⟩)], [[], [0]], 1⟩

/-- Claim C4 is false as stated: running one layer of the dropper on a
single group-0 node at the origin, with the avoidance area the half-plane
`x ≤ 2000`, creates the dropped node at `(3100, 0)` — `moveOutside`
pushes it `radius_sample_resolution + 100` microns past the avoidance
boundary, within its documented search budget — so the child sits at
planar distance `3100 > max_move = 2000` from its parent (the node id 0
it links to via `parent`). -/
theorem C4_counterexample :
    getNode (oldLayerBody cexCtxC4 cexForestC4 1) 1 =
      some ⟨⟨3100, 0⟩, 1, false, -1, true, some 0, []⟩ ∧
    getNode (oldLayerBody cexCtxC4 cexForestC4 1) 0 =
      some ⟨⟨0, 0⟩, 0, false, 0, true, none, []⟩ ∧
    vSize2 ((⟨3100, 0⟩ : Pt) - ⟨0, 0⟩) > cexCtxC4.m * cexCtxC4.m := by
  decide

/-- Claim C4, amended: the distance between a dropped node and its parent
is bounded by `2·max_move + radius_sample_resolution + 100` for group-0
(to-buildplate) nodes — the neighbour-mean step is capped at `max_move`
and `moveOutside` may add its full search budget of
`max_move + radius_sample_resolution + 100` on top — and by `max_move`
for interior-group nodes; in the new pipeline a surviving moved node ends
at most `max_move` (in truncated-`vSize` metric) from its pre-move
position.  The `moveOutside` and `normal` bounds are the documented
contracts of those helpers (outside this snapshot), assumed as
hypotheses. -/
theorem C4_move_bound_amended (C : OldCtx P) (g2 : GeomOps P) (avoid2 : Int → Int → P)
    (adj2 : Pt → List Pt) (z sIdx : Nat) (nodePos : Pt) (nbrs : List Pt)
    (m2 lay : Int) (n n' : TNode)
    (hm : 0 ≤ C.m) (hres : 0 ≤ C.res)
    (hmo : ∀ q : Pt,
      vSize2 (C.g.moveOutside (C.avoid sIdx (z - 1)) q (C.res + 100)
        ((C.m + C.res + 100) * (C.m + C.res + 100)) - q) ≤
        (C.m + C.res + 100) * (C.m + C.res + 100))
    (hnrm : ∀ (v : Pt) (len : Int), 0 ≤ len → vSize2 (C.g.nrm v len) ≤ len * len)
    (hnew : moveNodeNew g2 avoid2 adj2 m2 lay n = some n') :
    vSize2 (dropMoveNextPos C z true sIdx nodePos nbrs - nodePos) ≤
      (2 * C.m + C.res + 100) * (2 * C.m + C.res + 100) ∧
    vSize2 (dropMoveNextPos C z false sIdx nodePos nbrs - nodePos) ≤ C.m * C.m ∧
    vSizeI (n'.pos - n.pos) ≤ m2 := by
  refine ⟨?_, ?_, moveNodeNew_disp g2 avoid2 adj2 m2 lay n n' hnew⟩
  · show vSize2
      (C.g.moveOutside (C.avoid sIdx (z - 1)) (meanStep C nodePos nbrs) (C.res + 100)
        ((C.m + C.res + 100) * (C.m + C.res + 100)) - nodePos) ≤ _
    rw [pt_sub_split _ (meanStep C nodePos nbrs) nodePos]
    have hstep :
        vSize2 (meanStep C nodePos nbrs - nodePos) ≤ C.m * C.m :=
      meanStep_disp C nodePos nbrs hm hnrm
    have hout := hmo (meanStep C nodePos nbrs)
    have := pt_add_sq_le (meanStep C nodePos nbrs - nodePos)
      (C.g.moveOutside (C.avoid sIdx (z - 1)) (meanStep C nodePos nbrs) (C.res + 100)
        ((C.m + C.res + 100) * (C.m + C.res + 100)) - meanStep C nodePos nbrs)
      C.m (C.m + C.res + 100) hm (by omega) hstep hout
    calc vSize2 _ ≤ (C.m + (C.m + C.res + 100)) * (C.m + (C.m + C.res + 100)) := this
      _ = (2 * C.m + C.res + 100) * (2 * C.m + C.res + 100) := by ring
  · exact guideAdjust_disp C z sIdx nodePos _ _ hm hnrm

theorem C4_move_bound_amended_witness :
    vSize2 (dropMoveNextPos cexCtxC4 1 false 0 ⟨0, 0⟩ [] - ⟨0, 0⟩) ≤
      cexCtxC4.m * cexCtxC4.m :=
  (C4_move_bound_amended cexCtxC4 hpOpsG (fun _ _ => hpOpsG.em) (fun _ => []) 1 0 ⟨0, 0⟩ []
    2000 0 (TNode.mk ⟨0, 0⟩ 0 0 []) (TNode.mk ⟨0, 0⟩ 0 0 [])
    (by decide) (by decide)
    (fun q => by
      show vSize2 (hpMoveOutside 2000 q 1100 (3100 * 3100) - q) ≤ 3100 * 3100
      unfold hpMoveOutside
      split
      · split
        · next h2 =>
          have hv : vSize2 ((⟨2000 + 1100, q.y⟩ : Pt) - q) =
              (2000 + 1100 - q.x) * (2000 + 1100 - q.x) := by
            show (2000 + 1100 - q.x) * (2000 + 1100 - q.x) +
                (q.y - q.y) * (q.y - q.y) = _
            ring
          rw [hv]
          exact h2
        · rw [vSize2_self_sub]; norm_num
      · rw [vSize2_self_sub]; norm_num)
    (fun v len h => by
      show vSize2 (⟨0, 0⟩ : Pt) ≤ len * len
      have h0 : vSize2 (⟨0, 0⟩ : Pt) = 0 := by decide
      nlinarith)
    rfl).2.1

end MoveBounds

/-! ### Claim C5 -/

theorem getNode_mk_cons_self (i : Nat) (x : ONode) (st : List (Nat × ONode))
    (L : List (List Nat)) (fr : Nat) :
    getNode ⟨(i, x) :: st, L, fr⟩ i = some x := by
  simp [getNode, storeFind]

theorem getNode_mk_cons_ne (i j : Nat) (x : ONode) (st : List (Nat × ONode))
    (L L' : List (List Nat)) (fr fr' : Nat) (h : j ≠ i) :
    getNode ⟨(i, x) :: st, L, fr⟩ j = getNode ⟨st, L', fr'⟩ j := by
  simp [getNode, storeFind, Ne.symm h]

theorem getNode_store_only (st : List (Nat × ONode)) (L L' : List (List Nat))
    (fr fr' : Nat) (j : Nat) :
    getNode ⟨st, L, fr⟩ j = getNode ⟨st, L', fr'⟩ j := rfl

theorem storeFind_map_upd_ne (st : List (Nat × ONode)) (i j : Nat) (f : ONode → ONode)
    (h : j ≠ i) :
    storeFind (st.map (fun e => if e.1 = i then (e.1, f e.2) else e)) j = storeFind st j := by
  induction st with
  | nil => rfl
  | cons hd tl ih =>
    obtain ⟨a, x⟩ := hd
    by_cases hh : a = i
    · subst hh
      have hnj : ¬ (a = j) := fun he => h he.symm
      simp [storeFind, hnj, ih]
    · by_cases hj : a = j
      · subst hj
        simp [storeFind, hh]
      · simp [storeFind, hh, hj, ih]

theorem storeFind_map_upd_eq (st : List (Nat × ONode)) (i : Nat) (f : ONode → ONode)
    (nd : ONode) (h : storeFind st i = some nd) :
    storeFind (st.map (fun e => if e.1 = i then (e.1, f e.2) else e)) i = some (f nd) := by
  induction st with
  | nil => exact absurd h (by simp [storeFind])
  | cons hd tl ih =>
    obtain ⟨a, x⟩ := hd
    by_cases hh : a = i
    · subst hh
      have hx : x = nd := by simpa [storeFind] using h
      subst hx
      simp [storeFind]
    · have h' : storeFind tl i = some nd := by simpa [storeFind, hh] using h
      simp [storeFind, hh, ih h']

theorem getNode_updNode_ne (F : Forest) (i j : Nat) (f : ONode → ONode) (h : j ≠ i) :
    getNode (updNode F i f) j = getNode F j :=
  storeFind_map_upd_ne F.store i j f h

theorem getNode_updNode_eq (F : Forest) (i : Nat) (f : ONode → ONode) (nd : ONode)
    (h : getNode F i = some nd) :
    getNode (updNode F i f) i = some (f nd) :=
  storeFind_map_upd_eq F.store i f nd h

theorem insertDropped_no_conflict (F : Forest) (z1 : Nat) (nd : ONode)
    (hconf : ∀ i ∈ F.layers.getD z1 [],
      ((getNode F i).map (fun x => x.pos)) ≠ some nd.pos) :
    insertDropped F z1 nd =
      ⟨(F.fresh, nd) :: F.store, F.layers.set z1 ((F.layers.getD z1 []) ++ [F.fresh]),
       F.fresh + 1⟩ := by
  unfold insertDropped
  rw [List.find?_eq_none.mpr (fun i hi => by simpa using hconf i hi)]

/-- The half-plane geometry of the C5 counterexample: two mutual sole MST
neighbours at `(0,0)` and `(200,0)`, avoidance the half-plane `x ≤ 2000`,
`max_move = 2000`, `radius_sample_resolution = 1000`. -/
def cexCtxC5 : OldCtx Int :=
  { g := hpOpsG, coll := fun _ _ => hpOpsG.em, avoid := fun _ _ => 2000,
    guide := fun _ _ => hpOpsG.em,
    mstAdj := fun _ p =>
      if p = ⟨0, 0⟩ then [⟨200, 0⟩] else if p = ⟨200, 0⟩ then [⟨0, 0⟩] else [],
    m := 2000, res := 1000, restsOnModel := true, brn := fun _ => 0, sampleOf := fun _ => 0 }

/-- Two to-buildplate contact nodes on layer 1. -/
def cexForestC5 : Forest :=
  ⟨[(0, ⟨⟨0, 0⟩, 0, false, 0, true, none, []⟩),
    (1, ⟨⟨200, 0⟩, 0, false, 0, true, none, []⟩)],
   [[], [0, 1]], 2⟩

/-- Claim C5 is false as stated: the two nodes satisfy the leaf-pair
conditions (sole MST neighbours of each other, distance 200 < max_move,
both degree 1), both originals are marked (node 0 records node 1 in its
merged-neighbour list) — but the fused node is created at `(3100, 0)`,
not at the midpoint `(100, 0)`: the merge branch runs the group-0
`moveOutside` adjustment on the midpoint before creating the node. -/
theorem C5_counterexample :
    halveSum ⟨0, 0⟩ ⟨200, 0⟩ = ⟨100, 0⟩ ∧
    vSize2 ((⟨200, 0⟩ : Pt) - ⟨0, 0⟩) < cexCtxC5.m * cexCtxC5.m ∧
    getNode (oldLayerBody cexCtxC5 cexForestC5 1) 2 =
      some ⟨⟨3100, 0⟩, 1, false, -1, true, some 0, []⟩ ∧
    getNode (oldLayerBody cexCtxC5 cexForestC5 1) 0 =
      some ⟨⟨0, 0⟩, 0, false, 0, true, none, [1]⟩ ∧
    ((⟨3100, 0⟩ : Pt) ≠ ⟨100, 0⟩) := by
  decide

/-- Claim C5, amended: under exactly the claimed conditions (one MST
neighbour, closer than `max_move`, neighbour degree 1), the merge branch
creates a fused node whose position is the **midpoint subsequently
adjusted by the group's movement rule** (`moveOutside` past the avoidance
area for group 0, capped internal-guide move otherwise — the last two
conjuncts exhibit that shape), marks both originals for deletion, links
the current node as the fused node's sole upper neighbour (`parent`), and
records the MST neighbour in the current node's merged-neighbour list
(through which its subtree is adopted for pruning purposes). -/
theorem C5_leaf_merge_amended {P : Type} (C : OldCtx P) (z gIdx : Nat) (adj : Pt → List Pt)
    (group : List (Pt × Nat)) (F : Forest) (toDel : List Nat) (nid qid : Nat) (nd : ONode)
    (q : Pt)
    (hdel : nid ∉ toDel)
    (hget : getNode F nid = some nd)
    (hadj : adj nd.pos = [q])
    (hdist : vSize2 (q - nd.pos) < C.m * C.m)
    (hdeg : (adj q).length = 1)
    (hq : alLookup group q = some qid)
    (hfresh : getNode F F.fresh = none)
    (hconf : ∀ i ∈ F.layers.getD (z - 1) [],
      ((getNode F i).map (fun x => x.pos)) ≠
        some (leafMergeNextPos C z (gIdx = 0) (C.sampleOf (nd.dtt + 1)) nd.pos q)) :
    (firstPassEntry C z gIdx adj group (F, toDel) (nd.pos, nid)).2 = nid :: qid :: toDel ∧
    getNode (firstPassEntry C z gIdx adj group (F, toDel) (nd.pos, nid)).1 F.fresh =
      some ⟨leafMergeNextPos C z (gIdx = 0) (C.sampleOf (nd.dtt + 1)) nd.pos q,
            nd.dtt + 1, nd.skin, nd.roof - 1,
            !(C.g.insidePt (C.avoid (C.sampleOf (nd.dtt + 1)) (z - 1))
              (leafMergeNextPos C z (gIdx = 0) (C.sampleOf (nd.dtt + 1)) nd.pos q)),
            some nid, []⟩ ∧
    getNode (firstPassEntry C z gIdx adj group (F, toDel) (nd.pos, nid)).1 nid =
      some { nd with merged := qid :: nd.merged } ∧
    leafMergeNextPos C z true (C.sampleOf (nd.dtt + 1)) nd.pos q =
      C.g.moveOutside (C.avoid (C.sampleOf (nd.dtt + 1)) (z - 1)) (halveSum nd.pos q)
        (C.res + 100) ((C.m + C.res + 100) * (C.m + C.res + 100)) ∧
    leafMergeNextPos C z false (C.sampleOf (nd.dtt + 1)) nd.pos q =
      guideAdjust C z (C.sampleOf (nd.dtt + 1)) nd.pos nd.pos (halveSum nd.pos q) := by
  have hne : F.fresh ≠ nid := by
    intro he
    rw [he] at hfresh
    rw [hget] at hfresh
    exact absurd hfresh (by simp)
  have hstep : firstPassEntry C z gIdx adj group (F, toDel) (nd.pos, nid) =
      (updNode (insertDropped F (z - 1)
          ⟨leafMergeNextPos C z (gIdx = 0) (C.sampleOf (nd.dtt + 1)) nd.pos q,
           nd.dtt + 1, nd.skin, nd.roof - 1,
           !(C.g.insidePt (C.avoid (C.sampleOf (nd.dtt + 1)) (z - 1))
             (leafMergeNextPos C z (gIdx = 0) (C.sampleOf (nd.dtt + 1)) nd.pos q)),
           some nid, []⟩)
        nid (fun x => { x with merged := qid :: x.merged }),
       nid :: qid :: toDel) := by
    unfold firstPassEntry
    rw [if_neg hdel]
    rw [hget]
    simp only []
    rw [hadj]
    simp only []
    rw [if_pos ⟨hdist, hdeg⟩, hq]
  rw [hstep]
  have hins := insertDropped_no_conflict F (z - 1)
    ⟨leafMergeNextPos C z (gIdx = 0) (C.sampleOf (nd.dtt + 1)) nd.pos q,
     nd.dtt + 1, nd.skin, nd.roof - 1,
     !(C.g.insidePt (C.avoid (C.sampleOf (nd.dtt + 1)) (z - 1))
       (leafMergeNextPos C z (gIdx = 0) (C.sampleOf (nd.dtt + 1)) nd.pos q)),
     some nid, []⟩ hconf
  refine ⟨rfl, ?_, ?_, rfl, rfl⟩
  · rw [getNode_updNode_ne _ _ _ _ hne, hins]
    exact getNode_mk_cons_self _ _ _ _ _
  · have hget1 : getNode (insertDropped F (z - 1)
        ⟨leafMergeNextPos C z (gIdx = 0) (C.sampleOf (nd.dtt + 1)) nd.pos q,
         nd.dtt + 1, nd.skin, nd.roof - 1,
         !(C.g.insidePt (C.avoid (C.sampleOf (nd.dtt + 1)) (z - 1))
           (leafMergeNextPos C z (gIdx = 0) (C.sampleOf (nd.dtt + 1)) nd.pos q)),
         some nid, []⟩) nid = some nd := by
      rw [hins, getNode_mk_cons_ne _ _ _ _ _ F.layers _ F.fresh (Ne.symm hne)]
      rw [getNode_store_only _ _ F.layers _ F.fresh]
      exact hget
    rw [getNode_updNode_eq _ _ _ _ hget1]

theorem C5_leaf_merge_amended_witness :
    (firstPassEntry cexCtxC5 1 0 (cexCtxC5.mstAdj [⟨0, 0⟩, ⟨200, 0⟩])
      [(⟨0, 0⟩, 0), (⟨200, 0⟩, 1)] (cexForestC5, []) (⟨0, 0⟩, 0)).2 = [0, 1] :=
  (C5_leaf_merge_amended cexCtxC5 1 0 (cexCtxC5.mstAdj [⟨0, 0⟩, ⟨200, 0⟩])
    [(⟨0, 0⟩, 0), (⟨200, 0⟩, 1)] cexForestC5 [] 0 1
    ⟨⟨0, 0⟩, 0, false, 0, true, none, []⟩ ⟨200, 0⟩
    (by decide) (by decide) (by decide) (by decide) (by decide) (by decide) (by decide)
    (by decide)).1

/-! ### Claim C6 -/

theorem countdown_length (n : Nat) : (countdown n).length = n := by
  induction n with
  | zero => rfl
  | succ n ih => simp [countdown, ih]

section C6Helpers

variable {P : Type}

theorem driverLoop_count (C : NewCtx P) (l : Nat) (ts pending : List TNode) :
    (driverLoop C l ts pending).1 = l := by
  induction l generalizing ts pending with
  | zero => rfl
  | succ l ih =>
    unfold driverLoop
    simp [ih]

theorem foldl_max_layers (cs : List TNode) (a : Int) (h : ∀ n ∈ cs, n.layer ≤ a) :
    cs.foldl (fun acc n => max acc n.layer) a = a := by
  induction cs generalizing a with
  | nil => rfl
  | cons c cs ih =>
    have hc : max a c.layer = a := max_eq_left (h c (by simp))
    show cs.foldl (fun acc n => max acc n.layer) (max a c.layer) = a
    rw [hc]
    exact ih a (fun n hn => h n (by simp [hn]))

theorem maxLayerNew_head (c : TNode) (cs : List TNode) (hsort : SortedDesc (c :: cs))
    (hpos : 0 ≤ c.layer) : maxLayerNew (c :: cs) = c.layer := by
  show cs.foldl (fun acc n => max acc n.layer) (max 0 c.layer) = c.layer
  rw [max_eq_right hpos]
  exact foldl_max_layers cs c.layer (fun n hn => (List.pairwise_cons.mp hsort).1 n hn)

end C6Helpers

/-- A trivial context for the original dropper over the degenerate `Unit`
geometry. -/
def cexCtxC6 : OldCtx Unit :=
  { g := unitOpsG, coll := fun _ _ => (), avoid := fun _ _ => (), guide := fun _ _ => (),
    mstAdj := fun _ _ => [], m := 0, res := 0, restsOnModel := true, brn := fun _ => 0,
    sampleOf := fun _ => 0 }

/-- Five support layers whose only contact node sits on layer 2. -/
def cexForestC6 : Forest :=
  ⟨[(0, ⟨⟨0, 0⟩, 0, false, 0, true, none, []⟩)], [[], [], [0], [], []], 1⟩

/-- Claim C6 is false as stated for the original pipeline: with five
storage layers and the single contact node on layer 2, the layer-descent
loop of `TreeSupport::dropNodes` visits layers 4, 3, 2, 1 — four
iterations — while `max(contact_layer) = 2`.  (The last conjunct records
that `dropNodesOld` is by definition the fold of the layer body over that
very countdown sequence.) -/
theorem C6_counterexample :
    (countdown (cexForestC6.layers.length - 1)).length = 4 ∧
    maxContactLayer cexForestC6.layers = 2 ∧
    (countdown (cexForestC6.layers.length - 1)).length ≠ maxContactLayer cexForestC6.layers ∧
    dropNodesOld cexCtxC6 cexForestC6 =
      (countdown (cexForestC6.layers.length - 1)).foldl (oldLayerBody cexCtxC6)
        cexForestC6 := by
  refine ⟨by decide, by decide, by decide, rfl⟩

/-- Claim C6, amended: the original pipeline's dropper always runs
`number of support layers − 1` iterations, regardless of where the
contact nodes are; only the newer pipeline's descent loop
(`Tree::TreeSupport::generateSupportAreas`) runs exactly
`max(contact_layer)` iterations — its loop counter starts at the front
(highest) layer of the sorted contact list and decrements to zero. -/
theorem C6_iterations_amended {P : Type} (C : NewCtx P) (F : Forest)
    (c : TNode) (cs : List TNode) (l : Nat) (ts pending : List TNode)
    (hsort : SortedDesc (c :: cs)) (hpos : 0 ≤ c.layer) :
    (countdown (F.layers.length - 1)).length = F.layers.length - 1 ∧
    (driverLoop C l ts pending).1 = l ∧
    Int.ofNat (generateSupportAreasNew C (c :: cs)).1 = maxLayerNew (c :: cs) := by
  refine ⟨countdown_length _, driverLoop_count C l ts pending, ?_⟩
  show Int.ofNat (driverLoop C c.layer.toNat [] (c :: cs)).1 = _
  rw [driverLoop_count, maxLayerNew_head c cs hsort hpos]
  exact Int.toNat_of_nonneg hpos

/-- A trivial context for the newer pipeline over the degenerate `Unit`
geometry. -/
def unitNewCtx : NewCtx Unit :=
  { g := unitOpsG, avoid := fun _ _ => (), mstAdj := fun _ _ => [], m := 0, inc := 0,
    canOnModel := true }

theorem C6_iterations_amended_witness :
    Int.ofNat (generateSupportAreasNew unitNewCtx [TNode.mk ⟨0, 0⟩ 0 2 []]).1 =
      maxLayerNew [TNode.mk ⟨0, 0⟩ 0 2 []] :=
  (C6_iterations_amended unitNewCtx cexForestC6 (TNode.mk ⟨0, 0⟩ 0 2 []) [] 7 [] []
    (by simp [SortedDesc]) (by decide)).2.2

/-! ### Claim C7 -/

/-- Invariant of the seeding fold: the `added` flag is set exactly when a
node has been collected. -/
theorem seedPart_cases (pd : PartData) (coll : Pt → Bool) (grid : List Pt) :
    ((seedPart pd coll grid).2 = true → (seedPart pd coll grid).1 ≠ []) ∧
    ((seedPart pd coll grid).2 = false → (seedPart pd coll grid).1 = []) := by
  unfold seedPart
  suffices h : ∀ (acc : List Pt × Bool),
      (acc.2 = true → acc.1 ≠ []) → (acc.2 = false → acc.1 = []) →
      ((grid.foldl
          (fun acc c =>
            if pd.boundsContains c then
              if pd.insideP (pd.moveIn c) ∧ ¬ coll (pd.moveIn c) then
                (acc.1 ++ [pd.moveIn c], true)
              else acc
            else acc)
          acc).2 = true →
        (grid.foldl
          (fun acc c =>
            if pd.boundsContains c then
              if pd.insideP (pd.moveIn c) ∧ ¬ coll (pd.moveIn c) then
                (acc.1 ++ [pd.moveIn c], true)
              else acc
            else acc)
          acc).1 ≠ []) ∧
      ((grid.foldl
          (fun acc c =>
            if pd.boundsContains c then
              if pd.insideP (pd.moveIn c) ∧ ¬ coll (pd.moveIn c) then
                (acc.1 ++ [pd.moveIn c], true)
              else acc
            else acc)
          acc).2 = false →
        (grid.foldl
          (fun acc c =>
            if pd.boundsContains c then
              if pd.insideP (pd.moveIn c) ∧ ¬ coll (pd.moveIn c) then
                (acc.1 ++ [pd.moveIn c], true)
              else acc
            else acc)
          acc).1 = []) by
    exact h ([], false) (by simp) (fun _ => rfl)
  induction grid with
  | nil => intro acc h1 h2; exact ⟨h1, h2⟩
  | cons c rest ih =>
    intro acc h1 h2
    rw [List.foldl_cons]
    by_cases hb : pd.boundsContains c
    · by_cases hin : pd.insideP (pd.moveIn c) ∧ ¬ coll (pd.moveIn c)
      · rw [if_pos hb, if_pos hin]
        exact ih (acc.1 ++ [pd.moveIn c], true) (fun _ => by simp) (fun hf => by simp at hf)
      · rw [if_pos hb, if_neg hin]
        exact ih acc h1 h2
    · rw [if_neg hb]
      exact ih acc h1 h2

/-- Claim C7: every overhang part on every eligible seeding layer
produces at least one contact node; when no rotated-grid candidate
survives the inside-overhang and outside-collision tests, the node list
is exactly the fallback node at the mesh AABB centre moved inside the
part unconditionally. -/
theorem C7_contact_guarantee (pd : PartData) (collInside : Pt → Bool) (grid : List Pt)
    (centre : Pt) (layerNr zTop : Nat) (roofLayers : Int) :
    contactsForPart pd collInside grid centre layerNr zTop roofLayers ≠ [] ∧
    ((seedPart pd collInside grid).2 = false →
      contactsForPart pd collInside grid centre layerNr zTop roofLayers =
        [⟨pd.moveInU centre, 0, layerNr % 2 = 1, roofLayers, true, none, []⟩]) := by
  constructor
  · unfold contactsForPart
    cases hf : (seedPart pd collInside grid).2 with
    | false => simp [hf]
    | true =>
      rw [if_pos hf]
      have hne := (seedPart_cases pd collInside grid).1 hf
      simpa using hne
  · intro hf
    have hz := (seedPart_cases pd collInside grid).2 hf
    unfold contactsForPart
    simp [hf, hz]

theorem C7_contact_guarantee_witness :
    contactsForPart ⟨fun _ => false, id, fun _ => false, id⟩ (fun _ => false) [] ⟨0, 0⟩
      1 1 0 ≠ [] :=
  (C7_contact_guarantee ⟨fun _ => false, id, fun _ => false, id⟩ (fun _ => false) [] ⟨0, 0⟩
    1 1 0).1

/-! ### Claim C9 -/

section C9Helpers

variable {P : Type}

theorem pruneAux_nil (k : Nat) (F : Forest) : pruneAux k [] F = F := by
  cases k <;> rfl

theorem groupStep_nil (C : OldCtx P) (z : Nat) (st : Forest × List (Nat × Nat))
    (ge : Nat × List (Pt × Nat)) (h : ge.2 = []) : groupStep C z st ge = st := by
  obtain ⟨i, grp⟩ := ge
  simp only at h
  subst h
  rfl

theorem foldl_groupStep_id (C : OldCtx P) (z : Nat) (l : List (Nat × List (Pt × Nat)))
    (st : Forest × List (Nat × Nat)) (h : ∀ e ∈ l, e.2 = []) :
    l.foldl (groupStep C z) st = st := by
  induction l generalizing st with
  | nil => rfl
  | cons e rest ih =>
    rw [List.foldl_cons, groupStep_nil C z st e (h e (by simp))]
    exact ih st (fun e' he' => h e' (by simp [he']))

/-- All per-layer node sets of a forest are empty. -/
def AllEmptyLayers (F : Forest) : Prop := ∀ l ∈ F.layers, l = []

theorem getD_empty_of_allEmpty (F : Forest) (h : AllEmptyLayers F) (z : Nat) :
    F.layers.getD z [] = [] := by
  rw [List.getD_eq_getElem?_getD]
  cases hz : F.layers[z]? with
  | none => rfl
  | some x =>
    have hx : x ∈ F.layers := by
      have := List.getElem?_eq_some_iff.mp hz
      obtain ⟨hlt, hget⟩ := this
      exact hget ▸ List.getElem_mem hlt
    simpa using h x hx

/-- With no node on the layer, one iteration of the dropper's layer loop
is the identity: the groups are all empty, both passes fold over nothing,
and the prune deque is empty. -/
theorem oldLayerBody_empty (C : OldCtx P) (F : Forest) (z : Nat)
    (h : F.layers.getD z [] = []) : oldLayerBody C F z = F := by
  have hg : layerGroups C F z =
      (List.replicate ((C.g.splitParts (C.avoid 0 z)).length + 1) [], []) := by
    unfold layerGroups
    rw [h]
    rfl
  have hmem : ∀ e ∈ (List.replicate ((C.g.splitParts (C.avoid 0 z)).length + 1)
      ([] : List (Pt × Nat))).enum, e.2 = ([] : List (Pt × Nat)) := by
    intro e he
    exact List.eq_of_mem_replicate (List.snd_mem_of_mem_enum he)
  have hp : layerPasses C F z = (F, []) := by
    unfold layerPasses
    rw [hg]
    exact foldl_groupStep_id C z _ _ hmem
  unfold oldLayerBody
  rw [hp]
  exact pruneAux_nil _ F

theorem dropNodesOld_empty (C : OldCtx P) (F : Forest) (h : AllEmptyLayers F) :
    dropNodesOld C F = F := by
  unfold dropNodesOld
  generalize countdown (F.layers.length - 1) = l
  induction l with
  | nil => rfl
  | cons z rest ih =>
    rw [List.foldl_cons, oldLayerBody_empty C F z (getD_empty_of_allEmpty F h z)]
    exact ih

theorem seedForest_empty_of_total (numLayers : Nat) (meshes : List MeshIn)
    (collInside : Nat → Pt → Bool)
    (h : totalContacts numLayers meshes collInside = 0) :
    AllEmptyLayers (seedForest numLayers meshes collInside) := by
  intro l hl
  have hz := (List.sum_eq_zero_iff).mp h
  have : l.length = 0 := hz l.length (List.mem_map_of_mem List.length hl)
  exact List.length_eq_zero.mp this

/-- With no node on a layer (and the roof input empty), `drawCircles`
emits no infill parts, no roof and no floor, provided the clipping
library maps empty inputs to empty outputs. -/
theorem drawLayer_empty (D : DrawCfg P) (coll0 : Nat → P) (numColl layerNr : Nat)
    (h1 : D.g.unionSelf D.g.em = D.g.em)
    (h2 : ∀ x, D.g.diff D.g.em x = D.g.em)
    (h3 : ∀ a b, D.g.simplifyP D.g.em a b = D.g.em)
    (h4 : D.g.toParts D.g.em = [])
    (h5 : ∀ x, D.g.inter D.g.em x = D.g.em)
    (h6 : D.g.padd D.g.em D.g.em = D.g.em) :
    drawLayer D coll0 numColl layerNr [] D.g.em = ([], D.g.em, D.g.em) := by
  unfold drawLayer
  simp only [List.foldl_nil, h1]
  rw [h2]
  have hpair : (if numColl > layerNr + 1 - D.zBottomLayers then
      (D.g.diff D.g.em (coll0 (layerNr + 1 - D.zBottomLayers)),
       D.g.diff D.g.em (coll0 (layerNr + 1 - D.zBottomLayers)))
    else (D.g.em, D.g.em)) = (D.g.em, D.g.em) := by
    split
    · rw [h2]
    · rfl
  rw [hpair]
  rw [h3]
  have hfold : ∀ (l : List Nat),
      l.foldl (fun acc lb => D.g.padd acc (D.g.inter D.g.em (D.outl (layerNr - lb - D.zBottomLayers))))
        D.g.em = D.g.em := by
    intro l
    induction l with
    | nil => rfl
    | cons a rest ih =>
      rw [List.foldl_cons, h5, h6]
      exact ih
  have hbot : (if D.bottomEnable then
      (D.g.diff D.g.em
        (D.g.offs
          (D.g.padd
            ((stepRange D.bottomHeightLayers D.skipLayers).foldl
              (fun acc lb =>
                D.g.padd acc (D.g.inter D.g.em (D.outl (layerNr - lb - D.zBottomLayers))))
              D.g.em)
            (D.g.inter D.g.em
              (D.outl (layerNr - D.bottomHeightLayers - D.zBottomLayers))))
          10 JoinKind.miter),
       D.g.padd
         ((stepRange D.bottomHeightLayers D.skipLayers).foldl
           (fun acc lb =>
             D.g.padd acc (D.g.inter D.g.em (D.outl (layerNr - lb - D.zBottomLayers))))
           D.g.em)
         (D.g.inter D.g.em (D.outl (layerNr - D.bottomHeightLayers - D.zBottomLayers))))
    else (D.g.em, D.g.em)) = (D.g.em, D.g.em) := by
    split
    · rw [hfold, h5, h6, h2]
    · rfl
  rw [hbot, h4]

end C9Helpers

/-- Claim C9, amended: with no tree-support-enabled mesh (and the
mesh-group switch off) the generator returns without producing anything
and without touching `generated`; as soon as tree support is enabled
anywhere, `storage.support.generated` is set to `true` unconditionally —
even when not a single contact node exists — while an input with no
contact nodes still yields no support regions (no infill parts, empty
roof, empty floor on every layer). -/
theorem C9_empty_input_amended {P : Type} (C : OldCtx P) (D : DrawCfg P)
    (meshes : List MeshIn) (numLayers : Nat) (groupEnable : Bool)
    (h1 : D.g.unionSelf D.g.em = D.g.em)
    (h2 : ∀ x, D.g.diff D.g.em x = D.g.em)
    (h3 : ∀ a b, D.g.simplifyP D.g.em a b = D.g.em)
    (h4 : D.g.toParts D.g.em = [])
    (h5 : ∀ x, D.g.inter D.g.em x = D.g.em)
    (h6 : D.g.padd D.g.em D.g.em = D.g.em)
    (hnoc : totalContacts numLayers meshes
      (fun z p => C.g.insideBorder (C.coll 0 z) p) = 0) :
    ((groupEnable || meshes.any (fun m => m.enable)) = false →
      generateSupportAreasOld C D groupEnable meshes numLayers (fun _ => D.g.em) =
        ⟨false, []⟩) ∧
    ((groupEnable || meshes.any (fun m => m.enable)) = true →
      (generateSupportAreasOld C D groupEnable meshes numLayers
        (fun _ => D.g.em)).generated = true ∧
      ∀ t ∈ (generateSupportAreasOld C D groupEnable meshes numLayers
        (fun _ => D.g.em)).outLayers, t = ([], D.g.em, D.g.em)) := by
  constructor
  · intro huse
    unfold generateSupportAreasOld
    rw [huse]
    rfl
  · intro huse
    have hseed := seedForest_empty_of_total numLayers meshes
      (fun z p => C.g.insideBorder (C.coll 0 z) p) hnoc
    have hdrop := dropNodesOld_empty C _ hseed
    unfold generateSupportAreasOld
    rw [huse]
    refine ⟨rfl, ?_⟩
    intro t ht
    simp only [Bool.not_true, Bool.false_eq_true, if_false] at ht
    obtain ⟨z, hz, hdraw⟩ := List.mem_map.mp ht
    rw [hdrop] at hdraw
    rw [getD_empty_of_allEmpty _ hseed z] at hdraw
    rw [← hdraw]
    exact drawLayer_empty D _ numLayers z h1 h2 h3 h4 h5 h6

/-- The trivial drawing configuration over the degenerate `Unit`
geometry. -/
def unitDrawCfg : DrawCfg Unit :=
  { g := unitOpsG, nodeCircle := fun _ => (), zBottomLayers := 0, bottomEnable := false,
    skipLayers := 1, bottomHeightLayers := 0, outl := fun _ => (), simpArgA := fun _ => 0,
    simpArgB := 0 }

theorem C9_empty_input_amended_witness :
    (generateSupportAreasOld cexCtxC6 unitDrawCfg true [] 2
      (fun _ => unitOpsG.em)).generated = true :=
  ((C9_empty_input_amended cexCtxC6 unitDrawCfg [] 2 true rfl (fun _ => rfl)
    (fun _ _ => rfl) rfl (fun _ => rfl) rfl (by decide)).2 (by decide)).1

/-- A mesh with tree support enabled but empty overhang areas on every
layer. -/
def cexMeshC9 : MeshIn := ⟨true, [[], [], [], [], []], ⟨0, 0⟩, [], 1, 0⟩

/-- The context the driver builds for five support layers over the
degenerate `Unit` geometry. -/
def cexCtxC9 : OldCtx Unit :=
  buildOldCtx unitOpsG (fun _ => ()) () 0 0 0 1 5 (fun _ _ => []) true (fun _ => 0)
    (fun _ => 0)

/-- Claim C9 is false as stated: with tree support enabled and a mesh
whose overhang areas are all empty, not a single contact node is seeded,
yet `generateSupportAreas` still sets `storage.support.generated = true`
(while indeed emitting no support parts on any layer). -/
theorem C9_counterexample :
    (generateSupportAreasOld cexCtxC9 unitDrawCfg true [cexMeshC9] 5
      (fun _ => ())).generated = true ∧
    totalContacts 5 [cexMeshC9]
      (fun z p => cexCtxC9.g.insideBorder (cexCtxC9.coll 0 z) p) = 0 ∧
    ((generateSupportAreasOld cexCtxC9 unitDrawCfg true [cexMeshC9] 5
      (fun _ => ())).outLayers.map (fun t => t.1)) = [[], [], [], [], []] := by
  decide

/-! ### Claim C10 -/

theorem merge1_layer (n : TNode) (o : Option TNode) : (n.merge1 o).layer = n.layer := by
  cases n
  cases o with
  | none => rfl
  | some q => cases q; rfl

theorem foldl_merge1_layer (cur : TNode) (l : List (Option TNode)) :
    (l.foldl (fun c o => c.merge1 o) cur).layer = cur.layer := by
  induction l generalizing cur with
  | nil => rfl
  | cons a rest ih => rw [List.foldl_cons, ih, merge1_layer]

theorem withPos_layer (n : TNode) (p : Pt) : (n.withPos p).layer = n.layer := by
  cases n; rfl

theorem getD_some_mem {l : List (Option TNode)} {i : Nat} {n : TNode}
    (h : l.getD i none = some n) : some n ∈ l := by
  rw [List.getD_eq_getElem?_getD] at h
  cases hi : l[i]? with
  | none => rw [hi] at h; exact absurd h (by simp)
  | some x =>
    rw [hi] at h
    simp only [Option.getD_some] at h
    subst h
    obtain ⟨hlt, hget⟩ := List.getElem?_eq_some_iff.mp hi
    exact hget ▸ List.getElem_mem hlt

/-- Every live entry of the list sits at layer `z`. -/
def SomeLayer (z : Int) (l : List (Option TNode)) : Prop :=
  ∀ o ∈ l, ∀ n : TNode, o = some n → n.layer = z

theorem mergePassAux_layers (adj : Pt → List Pt) (thr z : Int) :
    ∀ (fuel i : Nat) (l : List (Option TNode)), SomeLayer z l →
      SomeLayer z (mergePassAux adj thr fuel i l) := by
  intro fuel
  induction fuel with
  | zero => intro i l h; exact h
  | succ fuel ih =>
    intro i l h
    rw [mergePassAux]
    split
    · split
      · exact ih (i + 1) l h
      · next cur hcur =>
        split
        · next q hq =>
          split
          · split
            · next j hj =>
              split
              · next nb hnb =>
                refine ih (i + 1) _ ?_
                intro o ho n hn
                rcases List.mem_or_eq_of_mem_set ho with ho1 | ho1
                · rcases List.mem_or_eq_of_mem_set ho1 with ho2 | ho2
                  · exact h o ho2 n hn
                  · subst ho2
                    cases hn
                    rw [merge1_layer]
                    exact h _ (getD_some_mem hnb) nb rfl
                · subst ho1; cases hn
              · exact ih (i + 1) l h
            · exact ih (i + 1) l h
          · exact ih (i + 1) l h
        · next nbrs hne =>
          refine ih _ _ ?_
          intro o ho n hn
          simp only [List.append_assoc, List.mem_append, List.mem_singleton] at ho
          rcases ho with ho | ho | ho | ho
          · exact h o (List.mem_of_mem_take ho) n hn
          · subst ho
            cases hn
            rw [foldl_merge1_layer]
            exact h _ (getD_some_mem hcur) cur rfl
          · obtain ⟨a, _, ha⟩ := List.mem_map.mp ho
            rw [← ha] at hn
            cases hn
          · have hmem : o ∈ (l.drop (i + 1)).filter (fun o =>
                !(match o with
                  | some n2 =>
                    ((adj cur.pos).contains n2.pos) && (vSizeI (n2.pos - cur.pos) ≤ thr)
                  | none => false)) := by
              have hpr : hubMerge thr cur (adj cur.pos) (l.drop (i + 1)) =
                  ((l.drop (i + 1)).filter (fun o =>
                    match o with
                    | some n2 =>
                      ((adj cur.pos).contains n2.pos) && (vSizeI (n2.pos - cur.pos) ≤ thr)
                    | none => false),
                   (l.drop (i + 1)).filter (fun o =>
                    !(match o with
                      | some n2 =>
                        ((adj cur.pos).contains n2.pos) && (vSizeI (n2.pos - cur.pos) ≤ thr)
                      | none => false))) := by
                unfold hubMerge
                exact List.partition_eq_filter_filter _ _
              rw [hpr] at ho
              exact ho
            exact h o (List.mem_of_mem_drop (List.mem_of_mem_filter hmem)) n hn
    · exact h

section C10Helpers

variable {P : Type}

theorem dropNodesNew_layers (inc z : Int) (ts : List TNode) (h : AllAtLayer z ts) :
    AllAtLayer (z - 1) (dropNodesNew inc ts) := by
  intro n hn
  obtain ⟨a, ha, rfl⟩ := List.mem_map.mp hn
  show a.layer - 1 = z - 1
  rw [h a ha]

theorem preparedNew_layers (C : NewCtx P) (z : Int) (ts : List TNode)
    (h : AllAtLayer z ts) : AllAtLayer (z - 1) (preparedNew C ts) := by
  have hd := dropNodesNew_layers C.inc z ts h
  intro n hn
  unfold preparedNew at hn
  split at hn
  · exact hd n (List.mem_of_mem_filter hn)
  · exact hd n hn

theorem groupRounds_mem (g : GeomOps P) :
    ∀ (ps : List P) (rest grp : List TNode), grp ∈ groupRounds g ps rest →
      ∀ n ∈ grp, n ∈ rest := by
  intro ps
  induction ps with
  | nil =>
    intro rest grp hg n hn
    simp only [groupRounds, List.mem_singleton] at hg
    subst hg
    exact hn
  | cons p ps ih =>
    intro rest grp hg n hn
    rw [groupRounds, List.mem_cons] at hg
    rcases hg with hg | hg
    · subst hg
      rw [List.partition_eq_filter_filter] at hn
      exact List.mem_of_mem_filter hn
    · have := ih _ grp hg n hn
      rw [List.partition_eq_filter_filter] at this
      exact List.mem_of_mem_filter this

theorem groupNodesNew_mem (g : GeomOps P) (a0 : P) (ts grp : List TNode)
    (hg : grp ∈ groupNodesNew g a0 ts) : ∀ n ∈ grp, n ∈ ts := by
  intro n hn
  rw [groupNodesNew, List.mem_cons] at hg
  rcases hg with hg | hg
  · subst hg
    rw [List.partition_eq_filter_filter] at hn
    exact List.mem_of_mem_filter hn
  · have := groupRounds_mem g _ _ grp hg n hn
    rw [List.partition_eq_filter_filter] at this
    exact List.mem_of_mem_filter this

theorem moveNodeNew_layer (g : GeomOps P) (avoid : Int → Int → P) (adj : Pt → List Pt)
    (m lay : Int) (n n' : TNode) (h : moveNodeNew g avoid adj m lay n = some n') :
    n'.layer = n.layer := by
  unfold moveNodeNew at h
  split at h
  · exact absurd h (by simp)
  · split at h
    · exact absurd h (by simp)
    · rw [← Option.some.inj h, withPos_layer]

/-- `processLayer` takes a working set all on layer `z` to a working set
all on layer `z - 1`. -/
theorem processLayerNew_layers (C : NewCtx P) (z : Int) (ts : List TNode)
    (h : AllAtLayer z ts) : AllAtLayer (z - 1) (processLayerNew C ts) := by
  intro n hn
  unfold processLayerNew at hn
  obtain ⟨o, ho, hid⟩ := List.mem_filterMap.mp hn
  obtain ⟨L, hL, hoL⟩ := List.mem_flatten.mp ho
  obtain ⟨grp, hgrp, hLg⟩ := List.mem_map.mp hL
  rw [← hLg] at hoL
  unfold groupOut at hoL
  obtain ⟨o2, ho2, heq⟩ := List.mem_map.mp hoL
  have hido : o = some n := hid
  rw [hido] at heq
  obtain ⟨n0, ho2eq, hmv⟩ := Option.bind_eq_some.mp heq
  have hsl : SomeLayer (z - 1) (grp.map some) := by
    intro o' ho' n' hn'
    obtain ⟨a, ha, hao⟩ := List.mem_map.mp ho'
    rw [← hao] at hn'
    cases hn'
    exact preparedNew_layers C z ts h n'
      (groupNodesNew_mem C.g _ _ grp hgrp n' ha)
  have hn0 : n0.layer = z - 1 :=
    mergePassAux_layers _ C.m (z - 1) (grp.length + 1) 0 (grp.map some) hsl o2 ho2 n0 ho2eq
  rw [moveNodeNew_layer _ _ _ _ _ n0 n hmv, hn0]

theorem dropWhile_head_false {α : Type} (p : α → Bool) :
    ∀ (l : List α) (x : α) (xs : List α), l.dropWhile p = x :: xs → p x = false := by
  intro l
  induction l with
  | nil => intro x xs h; exact absurd h (by simp)
  | cons a as ih =>
    intro x xs h
    rw [List.dropWhile_cons] at h
    split at h
    · exact ih x xs h
    · next hpa =>
      cases h
      exact Bool.of_not_eq_true hpa

theorem driverLoop_succ_snd (C : NewCtx P) (l : Nat) (ts pending : List TNode) :
    (driverLoop C (l + 1) ts pending).2 =
      (driverLoop C l
        (if (ts ++ pending.takeWhile (fun n => ¬ (n.layer < Int.ofNat (l + 1)))).length ≠ 0
         then
          processLayerNew C
            (ts ++ pending.takeWhile (fun n => ¬ (n.layer < Int.ofNat (l + 1))))
         else ts ++ pending.takeWhile (fun n => ¬ (n.layer < Int.ofNat (l + 1))))
        (pending.dropWhile (fun n => ¬ (n.layer < Int.ofNat (l + 1))))).2 := rfl

/-- The descent loop keeps the single-layer invariant: entering with fuel
`f`, a working set entirely on layer `f` and pending contacts sorted
descending with layers at most `f`, it ends with every surviving root on
layer `0`. -/
theorem driverLoop_layers (C : NewCtx P) :
    ∀ (f : Nat) (ts pending : List TNode), AllAtLayer (Int.ofNat f) ts →
      SortedDesc pending → (∀ n ∈ pending, n.layer ≤ Int.ofNat f) →
      AllAtLayer 0 (driverLoop C f ts pending).2 := by
  intro f
  induction f with
  | zero =>
    intro ts pending h _ _
    exact h
  | succ l ih =>
    intro ts pending h hs hb
    have hco : Int.ofNat (l + 1) = Int.ofNat l + 1 := rfl
    rw [driverLoop_succ_snd]
    have hts1 : AllAtLayer (Int.ofNat (l + 1))
        (ts ++ pending.takeWhile (fun n => ¬ (n.layer < Int.ofNat (l + 1)))) := by
      intro n hn
      rcases List.mem_append.mp hn with hn | hn
      · exact h n hn
      · have h1 : n ∈ pending := (List.takeWhile_sublist _).subset hn
        have h2 := List.mem_takeWhile_imp hn
        have h3 : ¬ (n.layer < Int.ofNat (l + 1)) := by simpa using h2
        have h4 := hb n h1
        omega
    have hsrest : SortedDesc
        (pending.dropWhile (fun n => ¬ (n.layer < Int.ofNat (l + 1)))) :=
      hs.sublist (List.dropWhile_sublist _)
    have hts2 : AllAtLayer (Int.ofNat l)
        (if (ts ++ pending.takeWhile (fun n => ¬ (n.layer < Int.ofNat (l + 1)))).length ≠ 0
         then
          processLayerNew C
            (ts ++ pending.takeWhile (fun n => ¬ (n.layer < Int.ofNat (l + 1))))
         else ts ++ pending.takeWhile (fun n => ¬ (n.layer < Int.ofNat (l + 1)))) := by
      split
      · have hpl := processLayerNew_layers C (Int.ofNat (l + 1)) _ hts1
        have heq : Int.ofNat (l + 1) - 1 = Int.ofNat l := by omega
        rw [heq] at hpl
        exact hpl
      · next hlen =>
        have hnil : ts ++ pending.takeWhile (fun n => ¬ (n.layer < Int.ofNat (l + 1))) = [] :=
          List.length_eq_zero.mp (not_ne_iff.mp hlen)
        rw [hnil]
        intro n hn
        exact absurd hn (List.not_mem_nil n)
    have hbrest : ∀ n ∈ pending.dropWhile (fun n => ¬ (n.layer < Int.ofNat (l + 1))),
        n.layer ≤ Int.ofNat l := by
      intro n hn
      cases hrest : pending.dropWhile (fun n => ¬ (n.layer < Int.ofNat (l + 1))) with
      | nil => rw [hrest] at hn; exact absurd hn (List.not_mem_nil n)
      | cons r rs =>
        rw [hrest] at hn
        have hr := dropWhile_head_false _ pending r rs hrest
        have hrlt : r.layer < Int.ofNat (l + 1) := by simpa using hr
        rcases List.mem_cons.mp hn with hn1 | hn1
        · subst hn1; omega
        · have hsr : SortedDesc (r :: rs) := hrest ▸ hsrest
          have hle := (List.pairwise_cons.mp hsr).1 n hn1
          omega
    exact ih _ _ hts2 hsrest hbrest

/-- Claim C10: in the `Tree::TreeSupport` pipeline the working set is
single-layered throughout.  `dropNodes` replaces every root at layer `z`
by a root at the same position whose radius grew by `radius_increment`,
whose layer is `z - 1` and whose sole child is the old root; `processLayer`
takes a working set entirely on layer `z` to one entirely on layer
`z - 1`; and the descent loop, started with fuel `f`, a working set on
layer `f` and pending contacts sorted by layer descending and bounded by
`f`, maintains the invariant down to layer `0`. -/
theorem C10_single_layer_invariant {P : Type} (C : NewCtx P) (inc z : Int)
    (ts work pending : List TNode) (f : Nat)
    (hwork : AllAtLayer (Int.ofNat f) work) (hsort : SortedDesc pending)
    (hbound : ∀ n ∈ pending, n.layer ≤ Int.ofNat f) :
    List.Forall₂ (fun n n' => n'.pos = n.pos ∧ n'.radius = n.radius + inc ∧
      n'.layer = n.layer - 1 ∧ n'.children = [n]) ts (dropNodesNew inc ts) ∧
    (AllAtLayer z ts → AllAtLayer (z - 1) (processLayerNew C ts)) ∧
    AllAtLayer 0 (driverLoop C f work pending).2 := by
  refine ⟨?_, processLayerNew_layers C z ts,
    driverLoop_layers C f work pending hwork hsort hbound⟩
  induction ts with
  | nil => exact List.Forall₂.nil
  | cons a rest ih => exact List.Forall₂.cons ⟨rfl, rfl, rfl, rfl⟩ ih

theorem C10_single_layer_invariant_witness :
    AllAtLayer 0 (driverLoop unitNewCtx 1 [TNode.mk ⟨0, 0⟩ 5 1 []] []).2 :=
  (C10_single_layer_invariant unitNewCtx 0 1 [] [TNode.mk ⟨0, 0⟩ 5 1 []] [] 1
    (by intro n hn; simp only [List.mem_singleton] at hn; subst hn; rfl)
    (by simp [SortedDesc]) (by simp)).2.2

end C10Helpers

end CuraTree
